import Mathlib

/-!
# canopen_master: the EMCY handler (`src/canopen_master/src/emcy.cpp`)

A shallow embedding of `EMCYHandler`: the emergency-frame callback, the
lifecycle hooks and the diagnostic report, with the object dictionary as an
explicit oracle and every call on the status sink recorded in order.

Machine integers are natural numbers reduced explicitly: a `uint8_t` is
`v % 256`, a 16-bit bit-field is `v % 65536`, and the `int` produced by `~32`
is its 32-bit pattern in two-complement form.
-/

namespace canopen

/-! ## Machine integers -/

/-- The 32-bit pattern of the C expression `~x` on an `int`. -/
def bitNot32 (x : Nat) : Nat := 2 ^ 32 - 1 - x % 2 ^ 32

/-! ## Frames and the emergency payload -/

/-- Modelled from the spec: the bus collaborator delivers raw payload frames;
`can::Frame` itself is declared outside `emcy.cpp`.  Only the payload bytes
matter to the handler. -/
structure Frame where
  data : List Nat

/-- The packed (`#pragma pack(1)`) struct `EMCYmsg`: two bytes of error code,
one byte of error register, five manufacturer bytes. -/
structure EMCYmsg where
  error_code : Nat
  error_register : Nat
  manufacturer_specific_error_field : List Nat

/-- Byte `i` of a frame payload, as an `unsigned char`. -/
def Frame.byte (f : Frame) (i : Nat) : Nat := f.data.getD i 0 % 256

/-- The overlay `EMCYmsg::Frame em(msg)`: the struct laid over the payload
bytes (offsets 0-1, 2 and 3-7; the 16-bit code in the little-endian order of
the bus). -/
def EMCYmsg.ofFrame (f : Frame) : EMCYmsg :=
  { error_code := f.byte 0 + 256 * f.byte 1
    error_register := f.byte 2
    manufacturer_specific_error_field := [f.byte 3, f.byte 4, f.byte 5, f.byte 6, f.byte 7] }

/-! ## Handler state -/

/-- The mutable members of `EMCYHandler` that the hooks consult: the health
flag `has_error_` and whether the optional entry `num_errors_` (0x1003 sub 0)
was found at construction (`num_errors_.valid()`). -/
structure EMCYHandler where
  has_error_ : Bool
  num_errors_valid : Bool
  deriving DecidableEq

/-- The callback `EMCYHandler::handleEMCY`: the flag is overwritten from the error register
of the frame (the `LOG` line has no effect on the state). -/
def handleEMCY (h : EMCYHandler) (msg : Frame) : EMCYHandler :=
  let em := EMCYmsg.ofFrame msg
  { h with has_error_ := decide (em.error_register &&& bitNot32 32 ≠ 0) }

/-! ## The status sink -/

/-- A call made on the `LayerStatus` / `LayerReport` sink handed to a hook.
`add_uint` is `report.add(key, (uint32_t) value)` and `add_text` is
`report.add(key, buf.str())`. -/
inductive SinkCall where
  | error (msg : String)
  | warn (msg : String)
  | add_uint (key : String) (value : Nat)
  | add_text (key : String) (value : String)
  deriving DecidableEq

/-- Recognises `status.error(..)` / `report.error(..)`. -/
def SinkCall.isError : SinkCall → Bool
  | .error _ => true
  | _ => false

/-- Recognises `report.warn(..)`. -/
def SinkCall.isWarn : SinkCall → Bool
  | .warn _ => true
  | _ => false

/-- Recognises `report.add(..)`. -/
def SinkCall.isAdd : SinkCall → Bool
  | .add_uint _ _ => true
  | .add_text _ _ => true
  | _ => false

/-- Severity levels of the sink. -/
inductive Severity where
  | ok
  | warn
  | error
  deriving DecidableEq

/-- Modelled from the spec: the orchestrator "supplies a status/report sink
per call that this component populates with severity (ok/warn/error) and named
fields"; the classes `LayerStatus` and `LayerReport` are declared outside
`emcy.cpp`.  The severity a fresh sink shows after a sequence of calls. -/
def severity (calls : List SinkCall) : Severity :=
  if calls.any SinkCall.isError then Severity.error
  else if calls.any SinkCall.isWarn then Severity.warn
  else Severity.ok

/-- Modelled from the spec: the layer states the orchestrator passes to the
read hook (`Init`, `Ready`, `Halted`, transient `Recovering` / `Shutdown`);
the enum `LayerState` is declared outside `emcy.cpp`. -/
inductive LayerState where
  | Init
  | Ready
  | Halted
  | Recovering
  | Shutdown
  deriving DecidableEq

/-! ## The object dictionary -/

/-- What a dictionary access can raise: the two exception classes the report
loop catches by name, and anything else. -/
inductive Exception where
  | out_of_range
  | TimeoutException
  | other
  deriving DecidableEq

/-- A dictionary read gives a value or raises. -/
inductive ReadResult where
  | value (v : Nat)
  | throws (e : Exception)
  deriving DecidableEq

/-- Modelled from the spec: the dictionary collaborator, `read(index, subindex)`
"blocking, may time out or signal not-found", and `write(index, subindex,
value)`; `ObjectStorage` is declared outside `emcy.cpp`.  The three entries the
handler uses: the error register 0x1001, the history length 0x1003 sub 0, and
the history entries 0x1003 sub `i` (lookup and read of one position taken
together).  The write `num_errors_.set(0)` is a round trip to the device like
a read and can raise as well: `set_num_errors` is `none` when the write
succeeds and the exception raised otherwise. -/
structure ObjectStorage where
  error_register : ReadResult
  num_errors : ReadResult
  history : Nat → ReadResult
  set_num_errors : Option Exception := none

/-- One access to the dictionary, as (index, subindex). -/
inductive Access where
  | read (index sub : Nat)
  | write (index sub value : Nat)
  deriving DecidableEq

/-- Everything a hook leaves behind: the handler state, the calls made on the
sink in order, the dictionary accesses in order, the lines logged, and the
exception that left the hook, if one did. -/
structure Outcome where
  handler : EMCYHandler
  calls : List SinkCall
  accesses : List Access
  log : List String
  thrown : Option Exception
  deriving DecidableEq

/-! ## History entries and text rendering -/

/-- The overlay `EMCYfield field(val)`: two 16-bit bit-fields over a 32-bit
value, the first-declared one in the low half. -/
structure EMCYfield where
  error_code : Nat
  addition_info : Nat
  deriving DecidableEq

/-- The constructor `EMCYfield(uint32_t val)`. -/
def EMCYfield.ofVal (val : Nat) : EMCYfield :=
  { error_code := val % 2 ^ 32 % 65536
    addition_info := val % 2 ^ 32 / 65536 }

/-- An unsigned value streamed under `std::hex`: lower-case digits, no
prefix, no padding. -/
def hexString (v : Nat) : String := String.mk (Nat.toDigits 16 v)

/-- The text the format `" %#08x "` produces: the value as unsigned, "0x" in
front of a non-zero value, zero-padded to eight characters, one blank on each
side. -/
def hexField (error_code : Nat) : String :=
  let u := error_code % 2 ^ 32
  let digits := hexString u
  let pre := if u = 0 then "" else "0x"
  " " ++ pre ++ String.mk (List.replicate (8 - pre.length - digits.length) '0') ++ digits ++ " "

/-- The C call `sprintf(hex, " %#08x ", error_code)` into `char hex[12]`: the
text and its terminating NUL have to fit the twelve bytes.  The result is
`none` when they do not: the call then writes past the buffer and the
behaviour is undefined. -/
def sprintfHex (error_code : Nat) : Option String :=
  if (hexField error_code).length + 1 ≤ 12 then some (hexField error_code) else none

/-! ## Error-code classification -/

/-- The table `error_map` of `resolveErrorCode`, keyed by (code, mask), in the
iteration order of the `std::map` (ascending keys, which is the order
written). -/
def error_map : List ((Nat × Nat) × String) :=
  [ ((0x0000, 0xFF00), "No Error"),
    ((0x1000, 0xFF00), "Generic Error"),
    ((0x2000, 0xF000), "Current"),
    ((0x3000, 0xF000), "Voltage"),
    ((0x4000, 0xF000), "Temperature"),
    ((0x5000, 0xFF00), "Device Hardware"),
    ((0x6000, 0xF000), "Device Software"),
    ((0x7000, 0xFF00), "Additional Modules"),
    ((0x8000, 0xF000), "Monitoring"),
    ((0x9000, 0xFF00), "External Error"),
    ((0xF000, 0xFF00), "Additional Functions"),
    ((0xFF00, 0xFF00), "Device Specific") ]

/-- The loop of `resolveErrorCode` as written: the test is
`mask & (error_code == code)`, since `==` binds tighter than `&`, and the
`break` sits outside the `if`, so the loop leaves after its first rule. -/
def resolveErrorCodeLoop (error_code : Nat) : List ((Nat × Nat) × String) → String → String
  | [], buf => buf
  | it :: _, buf =>
    if it.1.2 &&& (if error_code = it.1.1 then 1 else 0) ≠ 0 then buf ++ it.2 else buf

/-- The method `EMCYHandler::resolveErrorCode`: the hexadecimal rendering is written to
the stream, then the loop runs.  The content of the stream afterwards, or
`none` when the `sprintf` does not fit its buffer. -/
def resolveErrorCode (buf : String) (error_code : Nat) : Option String :=
  match sprintfHex error_code with
  | none => none
  | some hex => some (resolveErrorCodeLoop error_code error_map (buf ++ hex))

/-- The classification in the words of the spec: the raw code in hexadecimal,
followed by the label of the first rule, in table order, for which
`(code & mask) == code_pattern`; the hexadecimal code alone when no rule
matches. -/
def classify (code : Nat) : String :=
  match error_map.find? (fun it => code &&& it.1.2 == it.1.1) with
  | some it => hexField code ++ it.2
  | none => hexField code

/-! ## Lifecycle hooks -/

/-- The hook `EMCYHandler::handleRead`. -/
def handleRead (h : EMCYHandler) (current_state : LayerState) : Outcome :=
  if current_state = LayerState.Ready then
    if h.has_error_ then
      { handler := h, calls := [SinkCall.error "Node has emergency error"],
        accesses := [], log := [], thrown := none }
    else
      { handler := h, calls := [], accesses := [], log := [], thrown := none }
  else
    { handler := h, calls := [], accesses := [], log := [], thrown := none }

/-- The state of the history walk of `handleDiag` when it is left: the text
in `buf`, the positions (subindices of 0x1003) tried in order, and the
exception that escaped the `try`, if one did. -/
structure Walk where
  buf : String
  attempted : List Nat
  thrown : Option Exception
  deriving DecidableEq

/-- Records that position `sub` was tried before the rest of the walk. -/
def Walk.visit (sub : Nat) (w : Walk) : Walk :=
  { w with attempted := sub :: w.attempted }

/-- The loop `for(size_t i = 0; i < num; ++i)` of `handleDiag`; the first
argument is `num - i`, the iterations left. -/
def historyLoop (storage : ObjectStorage) : Nat → Nat → String → Walk
  | 0, _, buf => { buf := buf, attempted := [], thrown := none }
  | n + 1, i, buf =>
    let buf := if i ≠ 0 then buf ++ ", " else buf
    match storage.history (i + 1) with
    | ReadResult.value v =>
      let field := EMCYfield.ofVal v
      Walk.visit (i + 1)
        (historyLoop storage n (i + 1)
          (buf ++ hexString field.error_code ++ "#" ++ hexString field.addition_info))
    | ReadResult.throws Exception.out_of_range =>
      Walk.visit (i + 1) (historyLoop storage n (i + 1) (buf ++ "NOT_IN_DICT!"))
    | ReadResult.throws Exception.TimeoutException =>
      { buf := buf ++ "LIST_UNDERFLOW!", attempted := [i + 1], thrown := none }
    | ReadResult.throws e =>
      { buf := buf, attempted := [i + 1], thrown := some e }

/-- The accesses a walk made: one read of 0x1003 per position tried. -/
def Walk.accesses (w : Walk) : List Access :=
  w.attempted.map (fun sub => Access.read 0x1003 sub)

/-- The severity branch of `handleDiag` for a non-zero register. -/
def diagSeverityCalls (error_register : Nat) : List SinkCall :=
  if error_register &&& 1 ≠ 0 then [SinkCall.error "Node has emergency error"]
  else if error_register &&& bitNot32 32 ≠ 0 then [SinkCall.warn "Error register is not zero"]
  else []

/-- The hook `EMCYHandler::handleDiag`. -/
def handleDiag (h : EMCYHandler) (storage : ObjectStorage) : Outcome :=
  match storage.error_register with
  | ReadResult.throws _ =>
    { handler := h, calls := [SinkCall.error "Could not read error error_register"],
      accesses := [Access.read 0x1001 0], log := [], thrown := none }
  | ReadResult.value v =>
    let error_register := v % 256
    if error_register ≠ 0 then
      let calls := diagSeverityCalls error_register ++
        [SinkCall.add_uint "error_register" error_register]
      if h.num_errors_valid then
        match storage.num_errors with
        | ReadResult.throws e =>
          { handler := h, calls := calls,
            accesses := [Access.read 0x1001 0, Access.read 0x1003 0], log := [],
            thrown := some e }
        | ReadResult.value n =>
          let w := historyLoop storage (n % 256) 0 ""
          { handler := h,
            calls := match w.thrown with
              | none => calls ++ [SinkCall.add_text "errors" w.buf]
              | some _ => calls,
            accesses := [Access.read 0x1001 0, Access.read 0x1003 0] ++ w.accesses,
            log := [], thrown := w.thrown }
      else
        let w := historyLoop storage 0 0 ""
        { handler := h, calls := calls ++ [SinkCall.add_text "errors" w.buf],
          accesses := [Access.read 0x1001 0] ++ w.accesses, log := [], thrown := none }
    else
      { handler := h, calls := [], accesses := [Access.read 0x1001 0], log := [],
        thrown := none }

/-- The method `EMCYHandler::resetErrors`: the history length is written to zero when the
entry exists, and then the flag is cleared.  The write is not inside a `try`:
when it raises, the exception leaves the method before the flag is
touched. -/
def resetErrors (h : EMCYHandler) (storage : ObjectStorage) : Outcome :=
  if h.num_errors_valid then
    match storage.set_num_errors with
    | some e =>
      { handler := h, calls := [], accesses := [Access.write 0x1003 0 0], log := [],
        thrown := some e }
    | none =>
      { handler := { h with has_error_ := false }, calls := [],
        accesses := [Access.write 0x1003 0 0], log := [], thrown := none }
  else
    { handler := { h with has_error_ := false }, calls := [], accesses := [], log := [],
      thrown := none }

/-- The hook `EMCYHandler::handleInit`.  The line logged on the fault branch is
the stream after `resolveErrorCode`; its argument is a register byte, which
always fits the buffer of the `sprintf`. -/
def handleInit (h : EMCYHandler) (storage : ObjectStorage) : Outcome :=
  match storage.error_register with
  | ReadResult.throws _ =>
    { handler := h, calls := [SinkCall.error "Could not read error error_register"],
      accesses := [Access.read 0x1001 0], log := [], thrown := none }
  | ReadResult.value v =>
    let error_register := v % 256
    if error_register &&& 1 ≠ 0 then
      { handler := h, calls := [SinkCall.error "Node has emergency error"],
        accesses := [Access.read 0x1001 0],
        log := (resolveErrorCode "ER: " error_register).toList, thrown := none }
    else
      let r := resetErrors h storage
      { r with accesses := Access.read 0x1001 0 :: r.accesses }

/-- The hook `EMCYHandler::handleRecover`, which calls `handleInit`. -/
def handleRecover (h : EMCYHandler) (storage : ObjectStorage) : Outcome :=
  handleInit h storage

/-! ## The history text, item by item -/

/-- What one position contributes to the history text: the decoded entry as
`code#info` in hexadecimal, or the sentinel of the exception caught. -/
def historyItem (storage : ObjectStorage) (sub : Nat) : String :=
  match storage.history sub with
  | ReadResult.value v =>
    hexString (EMCYfield.ofVal v).error_code ++ "#" ++ hexString (EMCYfield.ofVal v).addition_info
  | ReadResult.throws Exception.out_of_range => "NOT_IN_DICT!"
  | ReadResult.throws Exception.TimeoutException => "LIST_UNDERFLOW!"
  | ReadResult.throws Exception.other => ""

/-- A read after which the walk goes on: the entry is readable, or missing
from the dictionary. -/
def ReadResult.continues : ReadResult → Bool
  | ReadResult.value _ => true
  | ReadResult.throws Exception.out_of_range => true
  | _ => false

/-! ## Concrete handlers and dictionaries -/

/-- A handler as the constructor leaves it (`has_error_(true)`), on a device
that has the history-length entry. -/
def freshHandler : EMCYHandler := { has_error_ := true, num_errors_valid := true }

/-- A handler whose flag has been cleared, on the same device. -/
def clearedHandler : EMCYHandler := { has_error_ := false, num_errors_valid := true }

/-- Register 0x01, history length 3, positions 1 and 2 readable, position 3
missing from the dictionary. -/
def storageThirdMissing : ObjectStorage :=
  { error_register := ReadResult.value 0x01
    num_errors := ReadResult.value 3
    history := fun sub =>
      if sub = 1 then ReadResult.value 0x00001000
      else if sub = 2 then ReadResult.value 0x00012310
      else ReadResult.throws Exception.out_of_range }

/-- Register 0x01, history length 3, the read of position 2 times out. -/
def storageSecondTimesOut : ObjectStorage :=
  { error_register := ReadResult.value 0x01
    num_errors := ReadResult.value 3
    history := fun sub =>
      if sub = 2 then ReadResult.throws Exception.TimeoutException
      else ReadResult.value 0x00001000 }

/-- Register 0x20 (the profile-specific bit alone), history length 1, every
position readable. -/
def storageProfileBit : ObjectStorage :=
  { error_register := ReadResult.value 0x20
    num_errors := ReadResult.value 1
    history := fun _ => ReadResult.value 0x00001000 }

/-- Register 0x00, history length 1, every position readable. -/
def storageNoError : ObjectStorage :=
  { error_register := ReadResult.value 0x00
    num_errors := ReadResult.value 1
    history := fun _ => ReadResult.value 0x00001000 }

/-- Register 0x02 (bit 0 clear, another category bit set). -/
def storageCategoryBit : ObjectStorage :=
  { error_register := ReadResult.value 0x02
    num_errors := ReadResult.value 1
    history := fun _ => ReadResult.value 0x00001000 }

/-- Register 0x03 (bit 0 set), history length 1. -/
def storageFault : ObjectStorage :=
  { error_register := ReadResult.value 0x03
    num_errors := ReadResult.value 1
    history := fun _ => ReadResult.value 0x00001000 }

/-- The read of the error register times out. -/
def storageUnreadable : ObjectStorage :=
  { error_register := ReadResult.throws Exception.TimeoutException
    num_errors := ReadResult.value 1
    history := fun _ => ReadResult.value 0x00001000 }

/-! ## Encoding a history entry -/

/-- Modelled from the spec: `encode_history_entry(HistoryEntry) -> uint32`, the
packing of a history entry into one 32-bit dictionary value, "low 16 bits =
code, high 16 bits = info"; `emcy.cpp` only has the decoding overlay. -/
def EMCYfield.encode (f : EMCYfield) : Nat :=
  (f.error_code % 65536 + 65536 * (f.addition_info % 65536)) % 2 ^ 32

/-! ## The emergency identifier -/

/-- Modelled from the spec: the arbitration identifier the bus collaborator
filters on; `can::Header` is declared outside `emcy.cpp`.  The record of the
four arguments of `can::Header(id, extended, rtr, error)`. -/
structure Header where
  id : Nat
  is_extended : Bool
  is_rtr : Bool
  is_error : Bool
  deriving DecidableEq

/-- The struct `EMCYid`: four bit-fields over one 32-bit word, 29 bits of
identifier, the extended flag, one bit-field without a name, and the invalid
flag, the first-declared one in the lowest bits. -/
structure EMCYid where
  id : Nat
  extended : Nat
  unnamed : Nat
  invalid : Nat
  deriving DecidableEq

/-- The constructor `EMCYid(uint32_t val)`, which stores `val` over the whole
struct. -/
def EMCYid.ofVal (val : Nat) : EMCYid :=
  { id := val % 2 ^ 32 % 2 ^ 29
    extended := val % 2 ^ 32 / 2 ^ 29 % 2
    unnamed := val % 2 ^ 32 / 2 ^ 30 % 2
    invalid := val % 2 ^ 32 / 2 ^ 31 }

/-- The method `EMCYid::header`: `can::Header(id, extended, false, false)`. -/
def EMCYid.header (e : EMCYid) : Header :=
  { id := e.id, is_extended := decide (e.extended ≠ 0), is_rtr := false, is_error := false }

/-- The method `EMCYid::get`, which reads the whole struct back as one 32-bit
word. -/
def EMCYid.get (e : EMCYid) : Nat :=
  e.id + 2 ^ 29 * e.extended + 2 ^ 30 * e.unnamed + 2 ^ 31 * e.invalid

/-! ## Construction -/

/-- Modelled from the spec: what the dictionary and the bus collaborator do
while the handler is constructed; both are declared outside `emcy.cpp`.  The
lookup of the entries 0x1001 and 0x1003 sub 0 (`none` when the entry is found,
the exception raised otherwise), the cached read of the entry 0x1014, and
`createMsgListener` for a given header (`none` when the listener is
created). -/
structure Startup where
  entry_error_register : Option Exception
  entry_num_errors : Option Exception
  emcy_cob_id : ReadResult
  createMsgListener : Header → Option Exception

/-- A constructed handler: the members the hooks consult, the listener held in
`emcy_listener_` (by the header it listens on), and the header
`createMsgListener` was called with, if it was called. -/
structure Constructed where
  handler : EMCYHandler
  emcy_listener_ : Option Header
  requested : Option Header
  deriving DecidableEq

/-- The constructor `EMCYHandler::EMCYHandler`: `has_error_(true)`, the lookup
of 0x1001 outside any `try`, the lookup of 0x1003 sub 0 and the subscription
each inside a `try` with `catch(...)`. -/
def EMCYHandler.construct (env : Startup) : Except Exception Constructed :=
  match env.entry_error_register with
  | some e => Except.error e
  | none =>
    let handler : EMCYHandler :=
      { has_error_ := true, num_errors_valid := env.entry_num_errors.isNone }
    match env.emcy_cob_id with
    | ReadResult.throws _ =>
      Except.ok { handler := handler, emcy_listener_ := none, requested := none }
    | ReadResult.value v =>
      let emcy_id := EMCYid.ofVal v
      match env.createMsgListener emcy_id.header with
      | some _ =>
        Except.ok { handler := handler, emcy_listener_ := none,
                    requested := some emcy_id.header }
      | none =>
        Except.ok { handler := handler, emcy_listener_ := some emcy_id.header,
                    requested := some emcy_id.header }

/-! ## Classification over a table -/

/-- The test of the spec for one rule: `(code & mask) == code_pattern`. -/
def ruleMatches (code : Nat) (it : (Nat × Nat) × String) : Bool :=
  code &&& it.1.2 == it.1.1

/-- The classification in the words of the spec, over any ordering of the
rules. -/
def classifyWith (table : List ((Nat × Nat) × String)) (code : Nat) : String :=
  match table.find? (ruleMatches code) with
  | some it => hexField code ++ it.2
  | none => hexField code

/-! ## Concrete start-ups -/

/-- Every entry is present, the emergency identifier is 0x80000081 (invalid
flag set, identifier 0x81), and the bus creates every listener. -/
def startupInvalidId : Startup :=
  { entry_error_register := none
    entry_num_errors := none
    emcy_cob_id := ReadResult.value 0x80000081
    createMsgListener := fun _ => none }

/-- The mandatory entry 0x1001 is missing. -/
def startupNoRegister : Startup :=
  { entry_error_register := some Exception.out_of_range
    entry_num_errors := none
    emcy_cob_id := ReadResult.value 0x00000081
    createMsgListener := fun _ => none }

/-- Only the mandatory entry is there: the history length is missing, the
emergency identifier cannot be read and the bus would refuse a listener. -/
def startupBare : Startup :=
  { entry_error_register := none
    entry_num_errors := some Exception.out_of_range
    emcy_cob_id := ReadResult.throws Exception.out_of_range
    createMsgListener := fun _ => some Exception.other }

/-- Register 0x00 and a history-length entry whose write times out. -/
def storageWriteFails : ObjectStorage :=
  { error_register := ReadResult.value 0x00
    num_errors := ReadResult.value 1
    history := fun _ => ReadResult.value 0x00001000
    set_num_errors := some Exception.TimeoutException }

/-- Register 0x01, history length 3, no read times out: position 1 is missing
from the dictionary, the read of position 2 fails with an exception the loop
does not catch, position 3 is readable. -/
def storageSecondFails : ObjectStorage :=
  { error_register := ReadResult.value 0x01
    num_errors := ReadResult.value 3
    history := fun sub =>
      if sub = 1 then ReadResult.throws Exception.out_of_range
      else if sub = 2 then ReadResult.throws Exception.other
      else ReadResult.value 0x00001000 }

/-- Register 0x01, history length 3, the first read to time out is that of
position 3, and the read of position 1 fails with an exception the loop does
not catch. -/
def storageFailsBeforeTimeout : ObjectStorage :=
  { error_register := ReadResult.value 0x01
    num_errors := ReadResult.value 3
    history := fun sub =>
      if sub = 1 then ReadResult.throws Exception.other
      else if sub = 3 then ReadResult.throws Exception.TimeoutException
      else ReadResult.value 0x00001000 }

/-- Register 0x01, history length 2, the read of position 1 fails with an
exception the loop does not catch. -/
def storageFirstFails : ObjectStorage :=
  { error_register := ReadResult.value 0x01
    num_errors := ReadResult.value 2
    history := fun sub =>
      if sub = 1 then ReadResult.throws Exception.other
      else ReadResult.value 0x00001000 }

/-! ## Bit facts about the error register -/

set_option maxRecDepth 100000 in
/-- Clearing the profile-specific bit 32 of a byte leaves something exactly
when the byte is neither 0 nor 32. -/
theorem byte_and_not32 :
    ∀ r : Nat, r < 256 → ((r &&& bitNot32 32 ≠ 0) ↔ (r ≠ 0 ∧ r ≠ 32)) := by
  decide

/-- The test `error_register & 1` reads bit 0. -/
theorem and_one_ne_zero (r : Nat) : (r &&& 1 ≠ 0) ↔ r % 2 = 1 := by
  rw [Nat.and_one_is_mod]; omega

/-! ## The emergency callback -/

/-- C1: for every prior handler state and every 8-byte frame, the flag after
`handleEMCY` is `(error_register & ~32) != 0` with the error register the
payload byte of index 2, that is, true exactly when that byte is neither 0 nor
32; it does not depend on the prior flag nor on the other seven bytes; the
registers 0x00, 0x01 and 0x20 give false, true and false. -/
theorem handleEMCY_flag (h : EMCYHandler) (c0 c1 r m0 m1 m2 m3 m4 : Nat) :
    (EMCYmsg.ofFrame ⟨[c0, c1, r, m0, m1, m2, m3, m4]⟩).error_register = r % 256
    ∧ (handleEMCY h ⟨[c0, c1, r, m0, m1, m2, m3, m4]⟩).has_error_
        = decide (r % 256 &&& bitNot32 32 ≠ 0)
    ∧ ((handleEMCY h ⟨[c0, c1, r, m0, m1, m2, m3, m4]⟩).has_error_ = true
        ↔ (r % 256 ≠ 0 ∧ r % 256 ≠ 32))
    ∧ (∀ (h2 : EMCYHandler) (d0 d1 n0 n1 n2 n3 n4 : Nat),
        (handleEMCY h2 ⟨[d0, d1, r, n0, n1, n2, n3, n4]⟩).has_error_
          = (handleEMCY h ⟨[c0, c1, r, m0, m1, m2, m3, m4]⟩).has_error_)
    ∧ (handleEMCY h ⟨[c0, c1, 0x00, m0, m1, m2, m3, m4]⟩).has_error_ = false
    ∧ (handleEMCY h ⟨[c0, c1, 0x01, m0, m1, m2, m3, m4]⟩).has_error_ = true
    ∧ (handleEMCY h ⟨[c0, c1, 0x20, m0, m1, m2, m3, m4]⟩).has_error_ = false := by
  have hr : r % 256 < 256 := Nat.mod_lt _ (by norm_num)
  refine ⟨rfl, rfl, ?_, fun _ _ _ _ _ _ _ _ => rfl, ?_, ?_, ?_⟩
  · have := byte_and_not32 (r % 256) hr
    simpa [handleEMCY, EMCYmsg.ofFrame, Frame.byte] using this
  · simp [handleEMCY, EMCYmsg.ofFrame, Frame.byte]
  · simp [handleEMCY, EMCYmsg.ofFrame, Frame.byte]; decide
  · simp [handleEMCY, EMCYmsg.ofFrame, Frame.byte]; decide

/-! ## Classification -/

/-- C2: at the codes 0x1000 and 0x2310 the code writes the hexadecimal
rendering alone, where the classification worded in the spec gives the labels
"Generic Error" and "Current"; the same at the code 0x01, which `handleInit`
passes for a register of 0x01 and which the first rule of the table
matches. -/
theorem resolveErrorCode_writes_no_label :
    resolveErrorCode "" 0x1000 = some " 0x001000 "
    ∧ classify 0x1000 = " 0x001000 Generic Error"
    ∧ resolveErrorCode "" 0x2310 = some " 0x002310 "
    ∧ classify 0x2310 = " 0x002310 Current"
    ∧ resolveErrorCode "" 0x01 = some " 0x000001 "
    ∧ classify 0x01 = " 0x000001 No Error"
    ∧ (handleInit freshHandler storageThirdMissing).log = ["ER:  0x000001 "] := by
  decide

/-! ## The diagnostic report -/

/-- A register of zero: `handleDiag` reads the register and does nothing
else. -/
theorem handleDiag_register_zero (h : EMCYHandler) (storage : ObjectStorage) (v : Nat)
    (hreg : storage.error_register = ReadResult.value v) (hz : v % 256 = 0) :
    handleDiag h storage =
      { handler := h, calls := [], accesses := [Access.read 0x1001 0], log := [],
        thrown := none } := by
  simp [handleDiag, hreg, hz]

/-- A non-zero register: the calls are the severity branch, the register
field, and at most the history text, nothing but fields after the severity
branch. -/
theorem handleDiag_calls_shape (h : EMCYHandler) (storage : ObjectStorage) (v : Nat)
    (hreg : storage.error_register = ReadResult.value v) (hnz : v % 256 ≠ 0) :
    ∃ tail : List SinkCall,
      (handleDiag h storage).calls =
        diagSeverityCalls (v % 256) ++ SinkCall.add_uint "error_register" (v % 256) :: tail
      ∧ ∀ c ∈ tail, c.isAdd = true := by
  simp only [handleDiag, hreg, hnz, ne_eq, not_false_eq_true, if_true]
  cases hv : h.num_errors_valid
  · exact ⟨[SinkCall.add_text "errors" (historyLoop storage 0 0 "").buf], by simp, by
      simp [SinkCall.isAdd]⟩
  · cases hn : storage.num_errors with
    | throws e => exact ⟨[], by simp, by simp⟩
    | value n =>
      cases hw : (historyLoop storage (n % 256) 0 "").thrown with
      | none =>
        exact ⟨[SinkCall.add_text "errors" (historyLoop storage (n % 256) 0 "").buf],
          by simp [hw], by simp [SinkCall.isAdd]⟩
      | some e => exact ⟨[], by simp [hw], by simp⟩

/-- Fields do not change the severity: after the severity branch only the
branch counts. -/
theorem severity_branch_then_fields (r : Nat) (tail : List SinkCall)
    (htail : ∀ c ∈ tail, c.isAdd = true) :
    ((∃ msg, SinkCall.error msg ∈ diagSeverityCalls r ++ tail) ↔ r % 2 = 1)
    ∧ ((∃ msg, SinkCall.warn msg ∈ diagSeverityCalls r ++ tail)
        ↔ (r % 2 = 0 ∧ r &&& bitNot32 32 ≠ 0))
    ∧ (severity (diagSeverityCalls r ++ tail) = Severity.error ↔ r % 2 = 1)
    ∧ (severity (diagSeverityCalls r ++ tail) = Severity.warn
        ↔ (r % 2 = 0 ∧ r &&& bitNot32 32 ≠ 0))
    ∧ (severity (diagSeverityCalls r ++ tail) = Severity.ok
        ↔ (r % 2 = 0 ∧ r &&& bitNot32 32 = 0)) := by
  have hE : ∀ msg, SinkCall.error msg ∉ tail := fun msg hm => by
    simpa [SinkCall.isAdd] using htail _ hm
  have hW : ∀ msg, SinkCall.warn msg ∉ tail := fun msg hm => by
    simpa [SinkCall.isAdd] using htail _ hm
  have hanyE : tail.any SinkCall.isError = false := by
    rw [List.any_eq_false]
    intro c hc
    have := htail c hc
    cases c <;> simp_all [SinkCall.isAdd, SinkCall.isError]
  have hanyW : tail.any SinkCall.isWarn = false := by
    rw [List.any_eq_false]
    intro c hc
    have := htail c hc
    cases c <;> simp_all [SinkCall.isAdd, SinkCall.isWarn]
  have h1 := and_one_ne_zero r
  by_cases hb : r &&& 1 ≠ 0
  · have hodd : r % 2 = 1 := h1.mp hb
    simp [diagSeverityCalls, hb, severity, SinkCall.isError, SinkCall.isWarn, hE, hW, hanyE,
      hanyW, hodd]
  · have heven : r % 2 = 0 := by
      have : ¬ r % 2 = 1 := fun h => hb (h1.mpr h)
      omega
    by_cases hm : r &&& bitNot32 32 ≠ 0
    · simp [diagSeverityCalls, hb, hm, severity, SinkCall.isError, SinkCall.isWarn, hE, hW,
        hanyE, hanyW, heven]
    · have hm0 : r &&& bitNot32 32 = 0 := not_not.mp hm
      simp [diagSeverityCalls, hb, hm0, severity, SinkCall.isError, SinkCall.isWarn, hE, hW,
        hanyE, hanyW, heven]

/-- The severity of the report for a readable register: error exactly when
bit 0 is set, warning exactly when bit 0 is clear and a bit other than 32 is
set, ok exactly for 0x00 and 0x20. -/
theorem handleDiag_severity_cases (h : EMCYHandler) (storage : ObjectStorage) (v : Nat)
    (hreg : storage.error_register = ReadResult.value v) :
    ((∃ msg, SinkCall.error msg ∈ (handleDiag h storage).calls) ↔ v % 256 % 2 = 1)
    ∧ ((∃ msg, SinkCall.warn msg ∈ (handleDiag h storage).calls)
        ↔ (v % 256 % 2 = 0 ∧ v % 256 &&& bitNot32 32 ≠ 0))
    ∧ (severity (handleDiag h storage).calls = Severity.error ↔ v % 256 % 2 = 1)
    ∧ (severity (handleDiag h storage).calls = Severity.warn
        ↔ (v % 256 % 2 = 0 ∧ v % 256 &&& bitNot32 32 ≠ 0))
    ∧ (severity (handleDiag h storage).calls = Severity.ok
        ↔ (v % 256 = 0x00 ∨ v % 256 = 0x20)) := by
  have hlt : v % 256 < 256 := Nat.mod_lt _ (by norm_num)
  have hmask := byte_and_not32 (v % 256) hlt
  by_cases hz : v % 256 = 0
  · rw [handleDiag_register_zero h storage v hreg hz]
    simp [severity, hz]
  · obtain ⟨tail, hcalls, htail⟩ := handleDiag_calls_shape h storage v hreg hz
    have hfields : ∀ c ∈ SinkCall.add_uint "error_register" (v % 256) :: tail,
        c.isAdd = true := by
      intro c hc
      rcases List.mem_cons.mp hc with rfl | hc
      · rfl
      · exact htail c hc
    obtain ⟨a, b, c, d, e⟩ := severity_branch_then_fields (v % 256) _ hfields
    rw [hcalls]
    refine ⟨a, b, c, d, e.trans ?_⟩
    constructor
    · rintro ⟨h2, h0⟩
      by_contra hne
      push_neg at hne
      exact (hmask.mpr ⟨hz, hne.2⟩) h0
    · rintro (h0 | h32)
      · exact absurd h0 hz
      · rw [h32]; decide

/-- C3: for every readable register value `v` (as a byte, `r = v % 256`),
whatever the rest of the dictionary does, `handleDiag` calls `report.error`
exactly when bit 0 of `r` is set, calls `report.warn` exactly when bit 0 is
clear and `(r & ~32) != 0`, and otherwise leaves the severity ok, which
happens exactly for `r = 0x00` and `r = 0x20`. -/
theorem handleDiag_severity (h : EMCYHandler) (storage : ObjectStorage) (v : Nat)
    (hreg : storage.error_register = ReadResult.value v) :
    ((∃ msg, SinkCall.error msg ∈ (handleDiag h storage).calls) ↔ v % 256 % 2 = 1)
    ∧ ((∃ msg, SinkCall.warn msg ∈ (handleDiag h storage).calls)
        ↔ (v % 256 % 2 = 0 ∧ v % 256 &&& bitNot32 32 ≠ 0))
    ∧ (severity (handleDiag h storage).calls = Severity.error ↔ v % 256 % 2 = 1)
    ∧ (severity (handleDiag h storage).calls = Severity.warn
        ↔ (v % 256 % 2 = 0 ∧ v % 256 &&& bitNot32 32 ≠ 0))
    ∧ (severity (handleDiag h storage).calls = Severity.ok
        ↔ (v % 256 = 0x00 ∨ v % 256 = 0x20)) :=
  handleDiag_severity_cases h storage v hreg

/-- Witness for C3: the register 0x03 is readable and the report is marked
error. -/
theorem handleDiag_severity_witness :
    storageFault.error_register = ReadResult.value 0x03
    ∧ severity (handleDiag freshHandler storageFault).calls = Severity.error :=
  ⟨rfl, (handleDiag_severity freshHandler storageFault 0x03 rfl).2.2.1.mpr (by decide)⟩

/-! ## The history walk -/

/-- One iteration at a position that is readable or missing: its item is
appended after the separator and the loop goes on. -/
theorem historyLoop_step (storage : ObjectStorage) (n i : Nat) (buf : String)
    (hc : (storage.history (i + 1)).continues = true) :
    historyLoop storage (n + 1) i buf =
      Walk.visit (i + 1) (historyLoop storage n (i + 1)
        ((if i ≠ 0 then buf ++ ", " else buf) ++ historyItem storage (i + 1))) := by
  cases hh : storage.history (i + 1) with
  | value x =>
    simp only [historyLoop, hh, historyItem, String.append_assoc]
  | throws e =>
    cases e with
    | out_of_range => simp only [historyLoop, hh, historyItem]
    | TimeoutException => simp [hh, ReadResult.continues] at hc
    | other => simp [hh, ReadResult.continues] at hc

/-- One iteration at a position whose read times out: the sentinel is appended
and the loop is left. -/
theorem historyLoop_timeout (storage : ObjectStorage) (n i : Nat) (buf : String)
    (ht : storage.history (i + 1) = ReadResult.throws Exception.TimeoutException) :
    historyLoop storage (n + 1) i buf =
      { buf := (if i ≠ 0 then buf ++ ", " else buf) ++ "LIST_UNDERFLOW!",
        attempted := [i + 1], thrown := none } := by
  simp only [historyLoop, ht]

/-- From a position `i ≥ 1` on, `m` positions that are readable or missing are
all visited in order and their items joined to the text. -/
theorem historyLoop_run (storage : ObjectStorage) (m : Nat) :
    ∀ (n i : Nat) (buf : String), 1 ≤ i →
      (∀ j, i < j → j ≤ i + m → (storage.history j).continues = true) →
      historyLoop storage (m + n) i buf =
        { historyLoop storage n (i + m)
            (String.intercalate.go buf ", " ((List.range' (i + 1) m).map (historyItem storage)))
          with attempted := List.range' (i + 1) m ++
            (historyLoop storage n (i + m)
              (String.intercalate.go buf ", "
                ((List.range' (i + 1) m).map (historyItem storage)))).attempted } := by
  induction m with
  | zero => intro n i buf _ _; simp [String.intercalate.go]
  | succ m ih =>
    intro n i buf hi hall
    have hstep : (storage.history (i + 1)).continues = true := hall (i + 1) (by omega) (by omega)
    have hne : i ≠ 0 := by omega
    rw [show m + 1 + n = (m + n) + 1 by omega, historyLoop_step storage (m + n) i buf hstep,
      ih n (i + 1) _ (by omega) (fun j h1 h2 => hall j (by omega) (by omega))]
    simp only [hne, ne_eq, not_false_eq_true, if_true, Walk.visit, List.range'_succ,
      List.map_cons, String.intercalate.go, List.cons_append]
    rw [show i + 1 + m = i + (m + 1) by omega]


/-- Joining one more item: the separator and the item go at the end. -/
theorem intercalate_go_snoc (s a : String) (l : List String) :
    ∀ acc : String, String.intercalate.go acc s (l ++ [a]) = String.intercalate.go acc s l ++ s ++ a := by
  induction l with
  | nil => intro acc; simp [String.intercalate.go]
  | cons b l ih => intro acc; simp [String.intercalate.go, ih]

/-- Joining a non-empty list and one more item. -/
theorem intercalate_snoc (s a b : String) (l : List String) :
    s.intercalate (b :: l ++ [a]) = s.intercalate (b :: l) ++ s ++ a := by
  simp [String.intercalate, intercalate_go_snoc]

/-- From the start of the walk, `m + 1` positions that are readable or missing
are all visited in order, and the text so far is their items joined by
", ". -/
theorem historyLoop_from_start (storage : ObjectStorage) (m n : Nat)
    (hall : ∀ j, 1 ≤ j → j ≤ m + 1 → (storage.history j).continues = true) :
    historyLoop storage (m + 1 + n) 0 "" =
      { historyLoop storage n (m + 1)
          (", ".intercalate ((List.range' 1 (m + 1)).map (historyItem storage)))
        with attempted := List.range' 1 (m + 1) ++
          (historyLoop storage n (m + 1)
            (", ".intercalate ((List.range' 1 (m + 1)).map (historyItem storage)))).attempted } := by
  have h1 : (storage.history (0 + 1)).continues = true := hall 1 (by omega) (by omega)
  rw [show m + 1 + n = (m + n) + 1 by omega, historyLoop_step storage (m + n) 0 "" h1,
    historyLoop_run storage m n (0 + 1) _ (by omega)
      (fun j h2 h3 => hall j (by omega) (by omega))]
  simp only [ne_eq, not_true_eq_false, if_false, String.empty_append, Walk.visit,
    List.range'_succ, List.map_cons, String.intercalate, List.cons_append, Nat.zero_add]
  rw [show 1 + m = m + 1 by omega]

/-- A walk over `N` positions that are all readable or missing visits all of
them in order, raises nothing, and leaves their items joined by ", ". -/
theorem historyLoop_all (storage : ObjectStorage) (N : Nat)
    (hall : ∀ j, 1 ≤ j → j ≤ N → (storage.history j).continues = true) :
    historyLoop storage N 0 "" =
      { buf := ", ".intercalate ((List.range' 1 N).map (historyItem storage)),
        attempted := List.range' 1 N, thrown := none } := by
  cases N with
  | zero => simp [historyLoop, String.intercalate]
  | succ m =>
    have := historyLoop_from_start storage m 0 hall
    simpa [historyLoop] using this

/-- A walk over `N` positions whose first timeout is at position `k`: the
positions 1..k are visited in order, nothing is raised, and the text is the
items of the positions before `k` and the sentinel, joined by ", ". -/
theorem historyLoop_first_timeout (storage : ObjectStorage) (N k : Nat)
    (hk1 : 1 ≤ k) (hkN : k ≤ N)
    (ht : storage.history k = ReadResult.throws Exception.TimeoutException)
    (hbefore : ∀ j, 1 ≤ j → j < k → (storage.history j).continues = true) :
    historyLoop storage N 0 "" =
      { buf := ", ".intercalate
          ((List.range' 1 (k - 1)).map (historyItem storage) ++ ["LIST_UNDERFLOW!"]),
        attempted := List.range' 1 k, thrown := none } := by
  obtain ⟨n, rfl⟩ : ∃ n, N = k + n := ⟨N - k, by omega⟩
  cases k with
  | zero => omega
  | succ k =>
    cases k with
    | zero =>
      rw [show 0 + 1 + n = n + 1 by omega, historyLoop_timeout storage n 0 "" ht]
      simp [String.intercalate, String.intercalate.go]
    | succ m =>
      have hall : ∀ j, 1 ≤ j → j ≤ m + 1 → (storage.history j).continues = true :=
        fun j h1 h2 => hbefore j h1 (by omega)
      rw [show m + 1 + 1 + n = m + 1 + (n + 1) by omega,
        historyLoop_from_start storage m (n + 1) hall,
        historyLoop_timeout storage n (m + 1) _ ht]
      have hne : m + 1 ≠ 0 := by omega
      simp only [hne, ne_eq, not_false_eq_true, if_true, Nat.add_sub_cancel]
      congr 1
      · rw [List.range'_succ, List.map_cons, intercalate_snoc]
      · conv_rhs => rw [List.range'_concat]
        rw [show 1 + 1 * (m + 1) = m + 1 + 1 by omega]


/-! ## The report, entry by entry -/

/-- A non-zero register on a device with a readable history length: the report
is the severity branch, the register field and the outcome of the walk. -/
theorem handleDiag_walk (h : EMCYHandler) (storage : ObjectStorage) (v n : Nat)
    (hreg : storage.error_register = ReadResult.value v) (hnz : v % 256 ≠ 0)
    (hvalid : h.num_errors_valid = true) (hnum : storage.num_errors = ReadResult.value n) :
    handleDiag h storage =
      { handler := h,
        calls := match (historyLoop storage (n % 256) 0 "").thrown with
          | none => diagSeverityCalls (v % 256) ++
              [SinkCall.add_uint "error_register" (v % 256)] ++
              [SinkCall.add_text "errors" (historyLoop storage (n % 256) 0 "").buf]
          | some _ => diagSeverityCalls (v % 256) ++
              [SinkCall.add_uint "error_register" (v % 256)],
        accesses := [Access.read 0x1001 0, Access.read 0x1003 0] ++
          (historyLoop storage (n % 256) 0 "").accesses,
        log := [], thrown := (historyLoop storage (n % 256) 0 "").thrown } := by
  simp only [handleDiag, hreg, hnz, hvalid, hnum, ne_eq, not_false_eq_true, if_true]

/-- C4 (as stated, refuted): with register 0x20 the severity stays ok, and yet
the history-length entry is read, position 1 is read and the history text is
attached to the report. -/
theorem handleDiag_profile_bit_reports_history :
    severity (handleDiag freshHandler storageProfileBit).calls = Severity.ok
    ∧ Access.read 0x1003 0 ∈ (handleDiag freshHandler storageProfileBit).accesses
    ∧ Access.read 0x1003 1 ∈ (handleDiag freshHandler storageProfileBit).accesses
    ∧ SinkCall.add_text "errors" "1000#0" ∈ (handleDiag freshHandler storageProfileBit).calls := by
  decide

/-- C4 (amended): when `handleDiag` leaves the severity ok the register is 0x00
or 0x20.  For 0x00 reporting stops: only the register is read and nothing is
attached.  For 0x20 the report goes on as for any non-zero register: the
register field is added, a valid history-length entry is read, and when that
read gives a length the history is walked over it and its text is attached
unless a read raises. -/
theorem handleDiag_ok_severity (h : EMCYHandler) (storage : ObjectStorage) (v : Nat)
    (hreg : storage.error_register = ReadResult.value v)
    (hok : severity (handleDiag h storage).calls = Severity.ok) :
    (v % 256 = 0x00 ∨ v % 256 = 0x20)
    ∧ (v % 256 = 0x00 →
        (handleDiag h storage).calls = []
        ∧ (handleDiag h storage).accesses = [Access.read 0x1001 0]
        ∧ (handleDiag h storage).thrown = none)
    ∧ (v % 256 = 0x20 →
        SinkCall.add_uint "error_register" 0x20 ∈ (handleDiag h storage).calls
        ∧ (h.num_errors_valid = true → Access.read 0x1003 0 ∈ (handleDiag h storage).accesses)
        ∧ (∀ n, h.num_errors_valid = true → storage.num_errors = ReadResult.value n →
            (handleDiag h storage).accesses =
              [Access.read 0x1001 0, Access.read 0x1003 0] ++
                (historyLoop storage (n % 256) 0 "").accesses
            ∧ ((historyLoop storage (n % 256) 0 "").thrown = none →
                SinkCall.add_text "errors" (historyLoop storage (n % 256) 0 "").buf
                  ∈ (handleDiag h storage).calls))) := by
  refine ⟨((handleDiag_severity_cases h storage v hreg).2.2.2.2).mp hok, ?_, ?_⟩
  · intro hz
    rw [handleDiag_register_zero h storage v hreg hz]
    exact ⟨rfl, rfl, rfl⟩
  · intro h20
    have hnz : v % 256 ≠ 0 := by omega
    refine ⟨?_, ?_, ?_⟩
    · obtain ⟨tail, hcalls, -⟩ := handleDiag_calls_shape h storage v hreg hnz
      rw [hcalls, h20]
      simp
    · intro hvalid
      cases hn : storage.num_errors with
      | value n => rw [handleDiag_walk h storage v n hreg hnz hvalid hn]; simp
      | throws e => simp [handleDiag, hreg, hnz, hvalid, hn]
    · intro n hvalid hn
      rw [handleDiag_walk h storage v n hreg hnz hvalid hn]
      refine ⟨rfl, ?_⟩
      intro hw
      simp [hw]

/-- Witness for C4: register 0x00 and register 0x20 both leave the severity
ok; the first stops after the register, the second reads the history
length. -/
theorem handleDiag_ok_severity_witness :
    (storageNoError.error_register = ReadResult.value 0x00
      ∧ severity (handleDiag freshHandler storageNoError).calls = Severity.ok
      ∧ (handleDiag freshHandler storageNoError).accesses = [Access.read 0x1001 0])
    ∧ (storageProfileBit.error_register = ReadResult.value 0x20
      ∧ severity (handleDiag freshHandler storageProfileBit).calls = Severity.ok
      ∧ Access.read 0x1003 0 ∈ (handleDiag freshHandler storageProfileBit).accesses) :=
  ⟨⟨rfl, by decide,
     ((handleDiag_ok_severity freshHandler storageNoError 0x00 rfl (by decide)).2.1
        (by decide)).2.1⟩,
   ⟨rfl, by decide,
     ((handleDiag_ok_severity freshHandler storageProfileBit 0x20 rfl (by decide)).2.2
        (by decide)).2.1 rfl⟩⟩


/-- The two outcomes after which the walk goes on, as one test. -/
theorem continues_of_readable_or_missing (r : ReadResult)
    (hr : (∃ x, r = ReadResult.value x) ∨ r = ReadResult.throws Exception.out_of_range) :
    r.continues = true := by
  rcases hr with ⟨x, rfl⟩ | rfl <;> rfl

/-- C5 (as stated, refuted): no history read times out, the history length is
3, position 1 is missing from the dictionary and the read of position 2 fails
with an exception the loop does not catch.  Position 3 is never read, the
exception leaves `handleDiag` and no history text is attached. -/
theorem handleDiag_uncaught_failure_ends_walk :
    (∀ j, storageSecondFails.history j ≠ ReadResult.throws Exception.TimeoutException)
    ∧ storageSecondFails.num_errors = ReadResult.value 3
    ∧ storageSecondFails.history 1 = ReadResult.throws Exception.out_of_range
    ∧ (handleDiag freshHandler storageSecondFails).accesses =
        [Access.read 0x1001 0, Access.read 0x1003 0, Access.read 0x1003 1,
         Access.read 0x1003 2]
    ∧ Access.read 0x1003 3 ∉ (handleDiag freshHandler storageSecondFails).accesses
    ∧ (handleDiag freshHandler storageSecondFails).calls =
        [SinkCall.error "Node has emergency error", SinkCall.add_uint "error_register" 1]
    ∧ (handleDiag freshHandler storageSecondFails).thrown = some Exception.other := by
  refine ⟨?_, by decide⟩
  intro j
  simp only [storageSecondFails]
  split_ifs <;> simp

/-- C5 (amended): on a non-zero register with history length `N`, when every
position 1..N is readable or missing from the dictionary (no read times out
and none fails otherwise), all `N`
positions are read in increasing order, nothing is raised, and the history
text attached is the items of the positions 1..N joined by ", ", where a
missing position contributes "NOT_IN_DICT!" and a readable one its decoded
`code#info`; with bit 0 of the register set the severity is error. -/
theorem handleDiag_missing_entry_continues (h : EMCYHandler) (storage : ObjectStorage)
    (v N : Nat)
    (hreg : storage.error_register = ReadResult.value v) (hnz : v % 256 ≠ 0)
    (hvalid : h.num_errors_valid = true)
    (hnum : storage.num_errors = ReadResult.value N) (hN : N < 256)
    (hhist : ∀ j, 1 ≤ j → j ≤ N →
      (∃ x, storage.history j = ReadResult.value x)
        ∨ storage.history j = ReadResult.throws Exception.out_of_range) :
    (handleDiag h storage).accesses =
        Access.read 0x1001 0 :: Access.read 0x1003 0 ::
          (List.range' 1 N).map (fun sub => Access.read 0x1003 sub)
    ∧ (handleDiag h storage).calls =
        diagSeverityCalls (v % 256) ++
          [SinkCall.add_uint "error_register" (v % 256),
           SinkCall.add_text "errors"
             (", ".intercalate ((List.range' 1 N).map (historyItem storage)))]
    ∧ (∀ j, 1 ≤ j → j ≤ N →
        storage.history j = ReadResult.throws Exception.out_of_range →
          historyItem storage j = "NOT_IN_DICT!")
    ∧ (∀ j x, 1 ≤ j → j ≤ N → storage.history j = ReadResult.value x →
          historyItem storage j =
            hexString (x % 2 ^ 32 % 65536) ++ "#" ++ hexString (x % 2 ^ 32 / 65536))
    ∧ (handleDiag h storage).thrown = none
    ∧ (v % 256 % 2 = 1 → severity (handleDiag h storage).calls = Severity.error) := by
  have hall : ∀ j, 1 ≤ j → j ≤ N → (storage.history j).continues = true :=
    fun j h1 h2 => continues_of_readable_or_missing _ (hhist j h1 h2)
  have hw := historyLoop_all storage N hall
  have hd := handleDiag_walk h storage v N hreg hnz hvalid hnum
  rw [Nat.mod_eq_of_lt hN, hw] at hd
  refine ⟨?_, ?_, ?_, ?_, ?_, ?_⟩
  · rw [hd]; rfl
  · rw [hd]; simp
  · intro j _ _ hj
    simp [historyItem, hj]
  · intro j x _ _ hj
    simp [historyItem, hj, EMCYfield.ofVal]
  · rw [hd]
  · intro hodd
    exact (handleDiag_severity_cases h storage v hreg).2.2.1.mpr hodd

/-- Witness for C5: register 0x01, history length 3, positions 1 and 2
readable and position 3 missing; the text is two decoded entries and the
sentinel, all three positions are read in order, and the severity is error. -/
theorem handleDiag_missing_entry_continues_witness :
    (handleDiag freshHandler storageThirdMissing).accesses =
        [Access.read 0x1001 0, Access.read 0x1003 0, Access.read 0x1003 1,
         Access.read 0x1003 2, Access.read 0x1003 3]
    ∧ (handleDiag freshHandler storageThirdMissing).calls =
        [SinkCall.error "Node has emergency error", SinkCall.add_uint "error_register" 1,
         SinkCall.add_text "errors" "1000#0, 2310#1, NOT_IN_DICT!"]
    ∧ severity (handleDiag freshHandler storageThirdMissing).calls = Severity.error := by
  have hhist : ∀ j, 1 ≤ j → j ≤ 3 →
      (∃ x, storageThirdMissing.history j = ReadResult.value x)
        ∨ storageThirdMissing.history j = ReadResult.throws Exception.out_of_range := by
    intro j h1 h3
    interval_cases j <;> simp [storageThirdMissing]
  have key := handleDiag_missing_entry_continues freshHandler storageThirdMissing 0x01 3
    rfl (by decide) rfl rfl (by decide) hhist
  exact ⟨key.1.trans (by decide), key.2.1.trans (by decide), key.2.2.2.2.2 (by decide)⟩

/-- C6 (as stated, refuted): the history length is 3 and the first read to
time out is that of position 3, but the read of position 1 fails with an
exception the loop does not catch.  Only position 1 is read, the exception
leaves `handleDiag` and no history text is attached. -/
theorem handleDiag_failure_before_timeout :
    storageFailsBeforeTimeout.num_errors = ReadResult.value 3
    ∧ storageFailsBeforeTimeout.history 3 = ReadResult.throws Exception.TimeoutException
    ∧ (∀ j, j < 3 →
        storageFailsBeforeTimeout.history j ≠ ReadResult.throws Exception.TimeoutException)
    ∧ (handleDiag freshHandler storageFailsBeforeTimeout).accesses =
        [Access.read 0x1001 0, Access.read 0x1003 0, Access.read 0x1003 1]
    ∧ Access.read 0x1003 3 ∉ (handleDiag freshHandler storageFailsBeforeTimeout).accesses
    ∧ (handleDiag freshHandler storageFailsBeforeTimeout).calls =
        [SinkCall.error "Node has emergency error", SinkCall.add_uint "error_register" 1]
    ∧ (handleDiag freshHandler storageFailsBeforeTimeout).thrown = some Exception.other := by
  decide

/-- C6 (amended): on a non-zero register with history length `N`, when the read
of position `k` (1 ≤ k ≤ N) times out and every position before `k` is
readable or missing from the dictionary, exactly the positions 1..k
are read, in order; no position beyond `k` is read; nothing is raised; and the
history text attached ends with "LIST_UNDERFLOW!", after the items of the
positions before `k`. -/
theorem handleDiag_timeout_stops_walk (h : EMCYHandler) (storage : ObjectStorage)
    (v N k : Nat)
    (hreg : storage.error_register = ReadResult.value v) (hnz : v % 256 ≠ 0)
    (hvalid : h.num_errors_valid = true)
    (hnum : storage.num_errors = ReadResult.value N) (hN : N < 256)
    (hk1 : 1 ≤ k) (hkN : k ≤ N)
    (ht : storage.history k = ReadResult.throws Exception.TimeoutException)
    (hbefore : ∀ j, 1 ≤ j → j < k →
      (∃ x, storage.history j = ReadResult.value x)
        ∨ storage.history j = ReadResult.throws Exception.out_of_range) :
    (handleDiag h storage).accesses =
        Access.read 0x1001 0 :: Access.read 0x1003 0 ::
          (List.range' 1 k).map (fun sub => Access.read 0x1003 sub)
    ∧ (∀ j, k < j → Access.read 0x1003 j ∉ (handleDiag h storage).accesses)
    ∧ (handleDiag h storage).calls =
        diagSeverityCalls (v % 256) ++
          [SinkCall.add_uint "error_register" (v % 256),
           SinkCall.add_text "errors"
             (", ".intercalate
               ((List.range' 1 (k - 1)).map (historyItem storage) ++ ["LIST_UNDERFLOW!"]))]
    ∧ (∃ before : String,
        ", ".intercalate
            ((List.range' 1 (k - 1)).map (historyItem storage) ++ ["LIST_UNDERFLOW!"])
          = before ++ "LIST_UNDERFLOW!")
    ∧ (handleDiag h storage).thrown = none := by
  have hall : ∀ j, 1 ≤ j → j < k → (storage.history j).continues = true :=
    fun j h1 h2 => continues_of_readable_or_missing _ (hbefore j h1 h2)
  have hw := historyLoop_first_timeout storage N k hk1 hkN ht hall
  have hd := handleDiag_walk h storage v N hreg hnz hvalid hnum
  rw [Nat.mod_eq_of_lt hN, hw] at hd
  refine ⟨?_, ?_, ?_, ?_, ?_⟩
  · rw [hd]; rfl
  · intro j hj hmem
    rw [hd] at hmem
    simp [Walk.accesses, List.mem_range'] at hmem
    omega
  · rw [hd]; simp
  · cases hl : (List.range' 1 (k - 1)).map (historyItem storage) with
    | nil => exact ⟨"", by simp [String.intercalate, String.intercalate.go]⟩
    | cons b l =>
      exact ⟨", ".intercalate (b :: l) ++ ", ", intercalate_snoc _ _ _ _⟩
  · rw [hd]

/-- Witness for C6: register 0x01, history length 3, the read of position 2
times out; positions 1 and 2 are read, position 3 never is, and the text ends
with the sentinel. -/
theorem handleDiag_timeout_stops_walk_witness :
    (handleDiag freshHandler storageSecondTimesOut).accesses =
        [Access.read 0x1001 0, Access.read 0x1003 0, Access.read 0x1003 1,
         Access.read 0x1003 2]
    ∧ Access.read 0x1003 3 ∉ (handleDiag freshHandler storageSecondTimesOut).accesses
    ∧ (handleDiag freshHandler storageSecondTimesOut).calls =
        [SinkCall.error "Node has emergency error", SinkCall.add_uint "error_register" 1,
         SinkCall.add_text "errors" "1000#0, LIST_UNDERFLOW!"] := by
  have hbefore : ∀ j, 1 ≤ j → j < 2 →
      (∃ x, storageSecondTimesOut.history j = ReadResult.value x)
        ∨ storageSecondTimesOut.history j = ReadResult.throws Exception.out_of_range := by
    intro j h1 h2
    interval_cases j
    simp [storageSecondTimesOut]
  have key := handleDiag_timeout_stops_walk freshHandler storageSecondTimesOut 0x01 3 2
    rfl (by decide) rfl rfl (by decide) (by decide) (by decide) rfl hbefore
  exact ⟨key.1.trans (by decide), key.2.1 3 (by decide), key.2.2.1.trans (by decide)⟩

/-- C7: when the read of the error register fails, whatever it raises,
`handleDiag` calls `report.error` once and returns: no field is added, the
register is the only entry accessed, so neither the history length nor any
history entry is read. -/
theorem handleDiag_register_unreadable (h : EMCYHandler) (storage : ObjectStorage)
    (e : Exception) (hreg : storage.error_register = ReadResult.throws e) :
    handleDiag h storage =
        { handler := h, calls := [SinkCall.error "Could not read error error_register"],
          accesses := [Access.read 0x1001 0], log := [], thrown := none }
    ∧ severity (handleDiag h storage).calls = Severity.error
    ∧ (∀ c ∈ (handleDiag h storage).calls, c.isAdd = false)
    ∧ (∀ sub, Access.read 0x1003 sub ∉ (handleDiag h storage).accesses) := by
  have hd : handleDiag h storage =
      { handler := h, calls := [SinkCall.error "Could not read error error_register"],
        accesses := [Access.read 0x1001 0], log := [], thrown := none } := by
    simp [handleDiag, hreg]
  rw [hd]
  refine ⟨rfl, rfl, ?_, ?_⟩
  · intro c hc
    simp at hc
    subst hc
    rfl
  · intro sub
    simp

/-- Witness for C7: the read of the error register times out. -/
theorem handleDiag_register_unreadable_witness :
    storageUnreadable.error_register = ReadResult.throws Exception.TimeoutException
    ∧ (handleDiag freshHandler storageUnreadable).calls
        = [SinkCall.error "Could not read error error_register"]
    ∧ (handleDiag freshHandler storageUnreadable).accesses = [Access.read 0x1001 0] :=
  ⟨rfl,
   congrArg Outcome.calls
     (handleDiag_register_unreadable freshHandler storageUnreadable
       Exception.TimeoutException rfl).1,
   congrArg Outcome.accesses
     (handleDiag_register_unreadable freshHandler storageUnreadable
       Exception.TimeoutException rfl).1⟩


/-! ## Init, recover and read -/

/-- C8: when bit 0 of the error register is set, or the register cannot be
read, `handleInit` and `handleRecover` signal one error on the status and
leave the handler as it was: the flag keeps its value (true for a handler
fresh from the constructor), the register is the only entry accessed and
nothing is written, so the history length is not reset. -/
theorem handleInit_fault_keeps_state (h : EMCYHandler) (storage : ObjectStorage)
    (hfault : (∃ v, storage.error_register = ReadResult.value v ∧ v % 256 % 2 = 1)
      ∨ (∃ e, storage.error_register = ReadResult.throws e)) :
    (∃ msg, (handleInit h storage).calls = [SinkCall.error msg])
    ∧ severity (handleInit h storage).calls = Severity.error
    ∧ (handleInit h storage).handler = h
    ∧ (handleInit h storage).handler.has_error_ = h.has_error_
    ∧ (handleInit h storage).accesses = [Access.read 0x1001 0]
    ∧ (∀ index sub value,
        Access.write index sub value ∉ (handleInit h storage).accesses)
    ∧ (handleInit h storage).thrown = none
    ∧ handleRecover h storage = handleInit h storage := by
  have hshape : ∃ msg log, handleInit h storage =
      { handler := h, calls := [SinkCall.error msg], accesses := [Access.read 0x1001 0],
        log := log, thrown := none } := by
    rcases hfault with ⟨v, hreg, hodd⟩ | ⟨e, hreg⟩
    · have hb : v % 256 &&& 1 ≠ 0 := (and_one_ne_zero _).mpr hodd
      exact ⟨"Node has emergency error", (resolveErrorCode "ER: " (v % 256)).toList, by
        simp only [handleInit, hreg, hb, ne_eq, not_false_eq_true, if_true]⟩
    · exact ⟨"Could not read error error_register", [], by simp only [handleInit, hreg]⟩
  obtain ⟨msg, log, hd⟩ := hshape
  rw [handleRecover, hd]
  refine ⟨⟨msg, rfl⟩, rfl, rfl, rfl, rfl, ?_, rfl, rfl⟩
  intro index sub value
  simp

/-- Witness for C8: a fresh handler, register 0x03 and an unreadable register;
the flag is still true and nothing was written. -/
theorem handleInit_fault_keeps_state_witness :
    ((handleInit freshHandler storageFault).handler.has_error_ = true
      ∧ (handleInit freshHandler storageFault).accesses = [Access.read 0x1001 0]
      ∧ severity (handleInit freshHandler storageFault).calls = Severity.error)
    ∧ ((handleRecover freshHandler storageUnreadable).handler.has_error_ = true
      ∧ (handleRecover freshHandler storageUnreadable).accesses = [Access.read 0x1001 0]
      ∧ severity (handleRecover freshHandler storageUnreadable).calls = Severity.error) := by
  have k1 := handleInit_fault_keeps_state freshHandler storageFault
    (Or.inl ⟨0x03, rfl, by decide⟩)
  have k2 := handleInit_fault_keeps_state freshHandler storageUnreadable
    (Or.inr ⟨Exception.TimeoutException, rfl⟩)
  refine ⟨⟨k1.2.2.2.1, k1.2.2.2.2.1, k1.2.1⟩, ?_⟩
  rw [k2.2.2.2.2.2.2.2]
  exact ⟨k2.2.2.2.1, k2.2.2.2.2.1, k2.2.1⟩

/-- C9 (as stated, refuted): the register is 0x00, the history-length entry
exists and the write `num_errors_.set(0)` times out; the exception leaves
`handleInit` and `handleRecover`, and the flag is still true. -/
theorem handleInit_write_failure_keeps_flag :
    storageWriteFails.error_register = ReadResult.value 0x00
    ∧ freshHandler.has_error_ = true
    ∧ (handleInit freshHandler storageWriteFails).handler.has_error_ = true
    ∧ (handleInit freshHandler storageWriteFails).thrown = some Exception.TimeoutException
    ∧ (handleRecover freshHandler storageWriteFails).handler.has_error_ = true := by
  decide

/-- C9 (amended): for every readable register value with bit 0 clear, when the
history-length entry is absent or its write to zero does not raise,
`handleInit` and `handleRecover` make no call on the status, so no error is
signalled, and the flag is false afterwards whatever it was; the history
length is written to zero when the entry exists. -/
theorem handleInit_clears_flag (h : EMCYHandler) (storage : ObjectStorage) (v : Nat)
    (hreg : storage.error_register = ReadResult.value v) (heven : v % 256 % 2 = 0)
    (hwrite : h.num_errors_valid = true → storage.set_num_errors = none) :
    (handleInit h storage).calls = []
    ∧ severity (handleInit h storage).calls = Severity.ok
    ∧ (handleInit h storage).handler.has_error_ = false
    ∧ (handleInit h storage).handler.num_errors_valid = h.num_errors_valid
    ∧ (handleInit h storage).accesses =
        Access.read 0x1001 0 :: (if h.num_errors_valid then [Access.write 0x1003 0 0] else [])
    ∧ (handleInit h storage).thrown = none
    ∧ handleRecover h storage = handleInit h storage := by
  have hb : ¬ (v % 256 &&& 1 ≠ 0) := fun hne => by
    have := (and_one_ne_zero _).mp hne
    omega
  have hd : handleInit h storage =
      { resetErrors h storage with
        accesses := Access.read 0x1001 0 :: (resetErrors h storage).accesses } := by
    simp only [handleInit, hreg, hb, if_false]
  have hr : resetErrors h storage =
      { handler := { h with has_error_ := false }, calls := [],
        accesses := if h.num_errors_valid then [Access.write 0x1003 0 0] else [],
        log := [], thrown := none } := by
    cases hvalid : h.num_errors_valid with
    | false => simp [resetErrors, hvalid]
    | true => simp [resetErrors, hvalid, hwrite hvalid]
  rw [handleRecover, hd, hr]
  exact ⟨rfl, rfl, rfl, rfl, rfl, rfl, rfl⟩

/-- Witness for C9: a handler whose flag is true, registers 0x02 and 0x00 and a
write that succeeds; the flag is false afterwards and no error is
signalled. -/
theorem handleInit_clears_flag_witness :
    (storageCategoryBit.error_register = ReadResult.value 0x02
      ∧ storageCategoryBit.set_num_errors = none
      ∧ freshHandler.has_error_ = true
      ∧ (handleInit freshHandler storageCategoryBit).handler.has_error_ = false
      ∧ (handleInit freshHandler storageCategoryBit).calls = [])
    ∧ (handleInit freshHandler storageNoError).handler.has_error_ = false :=
  ⟨⟨rfl, rfl, rfl,
     (handleInit_clears_flag freshHandler storageCategoryBit 0x02 rfl (by decide)
        (fun _ => rfl)).2.2.1,
     (handleInit_clears_flag freshHandler storageCategoryBit 0x02 rfl (by decide)
        (fun _ => rfl)).1⟩,
   (handleInit_clears_flag freshHandler storageNoError 0x00 rfl (by decide)
      (fun _ => rfl)).2.2.1⟩

/-- C10: `handleRead` signals an error on the status exactly when the layer
state is Ready and the flag is set, and then it is the one call it makes; in
every other case it makes no call on the status; it never changes the handler
and touches no dictionary entry. -/
theorem handleRead_signals_iff (h : EMCYHandler) (current_state : LayerState) :
    ((∃ msg, SinkCall.error msg ∈ (handleRead h current_state).calls)
        ↔ (current_state = LayerState.Ready ∧ h.has_error_ = true))
    ∧ (handleRead h current_state).calls =
        (if current_state = LayerState.Ready ∧ h.has_error_ = true
          then [SinkCall.error "Node has emergency error"] else [])
    ∧ (severity (handleRead h current_state).calls = Severity.error
        ↔ (current_state = LayerState.Ready ∧ h.has_error_ = true))
    ∧ (handleRead h current_state).handler = h
    ∧ (handleRead h current_state).handler.has_error_ = h.has_error_
    ∧ (handleRead h current_state).accesses = []
    ∧ (handleRead h current_state).thrown = none := by
  by_cases hs : current_state = LayerState.Ready
  · cases he : h.has_error_ <;> simp [handleRead, hs, he, severity, SinkCall.isError]
  · simp [handleRead, hs, severity]


/-! ## The bit-field overlays -/

/-- C11: for every 32-bit value, the decoded history entry has the low 16 bits
as `error_code` and the high 16 bits as `addition_info`, and encoding it gives
the value back; conversely every pair of 16-bit values survives encoding
followed by decoding. -/
theorem EMCYfield_roundtrip (val : Nat) (hval : val < 2 ^ 32) :
    (EMCYfield.ofVal val).error_code = val % 65536
    ∧ (EMCYfield.ofVal val).addition_info = val / 65536
    ∧ (EMCYfield.ofVal val).encode = val
    ∧ (∀ c i : Nat, c < 65536 → i < 65536 →
        EMCYfield.ofVal (EMCYfield.encode { error_code := c, addition_info := i })
          = { error_code := c, addition_info := i }) := by
  have h32 : (2 : Nat) ^ 32 = 4294967296 := by norm_num
  simp only [EMCYfield.ofVal, EMCYfield.encode, h32] at *
  refine ⟨by omega, by omega, by omega, ?_⟩
  intro c i hc hi
  simp only [EMCYfield.mk.injEq]
  constructor <;> omega

/-- Witness for C11: the value 0x00012310 decodes to code 0x2310 and info
0x0001 and encodes back. -/
theorem EMCYfield_roundtrip_witness :
    (0x00012310 : Nat) < 2 ^ 32
    ∧ EMCYfield.ofVal 0x00012310 = { error_code := 0x2310, addition_info := 0x0001 }
    ∧ (EMCYfield.ofVal 0x00012310).encode = 0x00012310 :=
  ⟨by norm_num, by decide, (EMCYfield_roundtrip 0x00012310 (by norm_num)).2.2.1⟩

/-- C12: for every 32-bit value, `EMCYid(val).get()` is `val`: the bit-field
without a name keeps bit 30, so the word is reproduced also when that bit is
set. -/
theorem EMCYid_roundtrip (val : Nat) (hval : val < 2 ^ 32) :
    (EMCYid.ofVal val).get = val
    ∧ (EMCYid.ofVal val).unnamed = val / 2 ^ 30 % 2 := by
  have h32 : (2 : Nat) ^ 32 = 4294967296 := by norm_num
  have h31 : (2 : Nat) ^ 31 = 2147483648 := by norm_num
  have h30 : (2 : Nat) ^ 30 = 1073741824 := by norm_num
  have h29 : (2 : Nat) ^ 29 = 536870912 := by norm_num
  simp only [EMCYid.ofVal, EMCYid.get, h32, h31, h30, h29] at *
  constructor <;> omega

/-- Witness for C12: the word 0x40000081 has bit 30 set and is reproduced. -/
theorem EMCYid_roundtrip_witness :
    (0x40000081 : Nat) < 2 ^ 32
    ∧ (EMCYid.ofVal 0x40000081).unnamed = 1
    ∧ (EMCYid.ofVal 0x40000081).get = 0x40000081 :=
  ⟨by norm_num, by decide, (EMCYid_roundtrip 0x40000081 (by norm_num)).1⟩

/-- C13: for every 32-bit raw value the decoded identifier has `id` equal to
the raw value modulo 2^29, `extended` equal to bit 29 and `invalid` equal to
bit 31; the header takes `id` and `extended` only, so two raw values that agree
on the bits 0..29 give the same header. -/
theorem EMCYid_fields (raw : Nat) (hraw : raw < 2 ^ 32) :
    (EMCYid.ofVal raw).id = raw % 2 ^ 29
    ∧ ((EMCYid.ofVal raw).extended = if raw.testBit 29 then 1 else 0)
    ∧ ((EMCYid.ofVal raw).invalid = if raw.testBit 31 then 1 else 0)
    ∧ (EMCYid.ofVal raw).header =
        { id := raw % 2 ^ 29, is_extended := raw.testBit 29, is_rtr := false,
          is_error := false }
    ∧ (∀ raw2 : Nat, raw2 < 2 ^ 32 → raw2 % 2 ^ 30 = raw % 2 ^ 30 →
        (EMCYid.ofVal raw2).header = (EMCYid.ofVal raw).header) := by
  have h32 : (2 : Nat) ^ 32 = 4294967296 := by norm_num
  have h31 : (2 : Nat) ^ 31 = 2147483648 := by norm_num
  have h30 : (2 : Nat) ^ 30 = 1073741824 := by norm_num
  have h29 : (2 : Nat) ^ 29 = 536870912 := by norm_num
  have hmod : raw % 2 ^ 32 = raw := Nat.mod_eq_of_lt hraw
  have hext : (EMCYid.ofVal raw).extended = if raw.testBit 29 then 1 else 0 := by
    simp only [EMCYid.ofVal, hmod, Nat.testBit_to_div_mod, h29, decide_eq_true_eq]
    split <;> omega
  refine ⟨by simp only [EMCYid.ofVal, hmod], hext, ?_, ?_, ?_⟩
  · simp only [EMCYid.ofVal, hmod, Nat.testBit_to_div_mod, h31, decide_eq_true_eq]
    rw [h32] at hraw
    split <;> omega
  · simp only [EMCYid.header, hext]
    simp only [EMCYid.ofVal, hmod]
    cases raw.testBit 29 <;> simp
  · intro raw2 hraw2 hagree
    have hmod2 : raw2 % 2 ^ 32 = raw2 := Nat.mod_eq_of_lt hraw2
    simp only [EMCYid.header, EMCYid.ofVal, hmod, hmod2, h30, h29] at *
    have e1 : raw2 % 536870912 = raw % 536870912 := by omega
    have e2 : raw2 / 536870912 % 2 = raw / 536870912 % 2 := by omega
    rw [e1, e2]

/-- Witness for C13: the words 0x20000081 and 0xE0000081 differ in the bits 30
and 31 only and give the same header, identifier 0x81 with the extended
flag. -/
theorem EMCYid_fields_witness :
    (0xE0000081 : Nat) < 2 ^ 32
    ∧ (EMCYid.ofVal 0xE0000081).header = (EMCYid.ofVal 0x20000081).header
    ∧ (EMCYid.ofVal 0x20000081).header =
        { id := 0x81, is_extended := true, is_rtr := false, is_error := false } :=
  ⟨by norm_num,
   (EMCYid_fields 0x20000081 (by norm_num)).2.2.2.2 0xE0000081 (by norm_num) (by norm_num),
   by decide⟩


/-! ## Construction and the listener -/

/-- The constructor succeeds whenever the entry 0x1001 is found, and what it
builds is fixed by the three optional steps. -/
theorem construct_of_register_found (env : Startup)
    (hreg : env.entry_error_register = none) :
    EMCYHandler.construct env =
      Except.ok
        { handler := { has_error_ := true, num_errors_valid := env.entry_num_errors.isNone },
          emcy_listener_ :=
            match env.emcy_cob_id with
            | ReadResult.throws _ => none
            | ReadResult.value v =>
              match env.createMsgListener (EMCYid.ofVal v).header with
              | some _ => none
              | none => some (EMCYid.ofVal v).header,
          requested :=
            match env.emcy_cob_id with
            | ReadResult.throws _ => none
            | ReadResult.value v => some (EMCYid.ofVal v).header } := by
  simp only [EMCYHandler.construct, hreg]
  cases env.emcy_cob_id with
  | throws e => rfl
  | value v =>
    simp only
    cases env.createMsgListener (EMCYid.ofVal v).header <;> rfl

/-- C14 (as stated, refuted): the entry 0x1014 holds 0x80000081, whose invalid
flag is set, and the constructor still asks for, and holds, a listener on the
identifier 0x81. -/
theorem construct_listens_on_invalid_id :
    (EMCYid.ofVal 0x80000081).invalid = 1
    ∧ EMCYHandler.construct startupInvalidId =
        Except.ok
          { handler := freshHandler,
            emcy_listener_ :=
              some { id := 0x81, is_extended := false, is_rtr := false, is_error := false },
            requested :=
              some { id := 0x81, is_extended := false, is_rtr := false, is_error := false } } := by
  constructor
  · decide
  · rfl

/-- C14 (amended): the constructor never looks at the invalid flag.  For every
readable value of the entry 0x1014, whatever its bit 31, it calls
`createMsgListener` with the header of the decoded identifier, and it holds a
listener exactly when that call does not raise. -/
theorem construct_ignores_invalid_flag (env : Startup) (v : Nat)
    (hreg : env.entry_error_register = none)
    (hid : env.emcy_cob_id = ReadResult.value v) :
    ∃ c : Constructed,
      EMCYHandler.construct env = Except.ok c
      ∧ c.requested = some (EMCYid.ofVal v).header
      ∧ (c.emcy_listener_ = some (EMCYid.ofVal v).header
          ↔ env.createMsgListener (EMCYid.ofVal v).header = none)
      ∧ (c.emcy_listener_ = none
          ↔ env.createMsgListener (EMCYid.ofVal v).header ≠ none) := by
  refine ⟨_, construct_of_register_found env hreg, ?_, ?_, ?_⟩
  · simp only [hid]
  · simp only [hid]
    cases env.createMsgListener (EMCYid.ofVal v).header <;> simp
  · simp only [hid]
    cases env.createMsgListener (EMCYid.ofVal v).header <;> simp

/-- Witness for C14: with 0x80000081 in the entry 0x1014 the listener is
requested and held. -/
theorem construct_ignores_invalid_flag_witness :
    ∃ c : Constructed,
      EMCYHandler.construct startupInvalidId = Except.ok c
      ∧ c.requested = some (EMCYid.ofVal 0x80000081).header
      ∧ (c.emcy_listener_ = some (EMCYid.ofVal 0x80000081).header
          ↔ startupInvalidId.createMsgListener (EMCYid.ofVal 0x80000081).header = none)
      ∧ (c.emcy_listener_ = none
          ↔ startupInvalidId.createMsgListener (EMCYid.ofVal 0x80000081).header ≠ none) :=
  construct_ignores_invalid_flag startupInvalidId 0x80000081 rfl rfl

/-- C15 (as stated, refuted): a handler whose flag is true receives a frame
with error register 0x00, and the flag is false afterwards. -/
theorem handleEMCY_clears_flag :
    freshHandler.has_error_ = true
    ∧ (handleEMCY freshHandler ⟨[0x00, 0x00, 0x00, 0, 0, 0, 0, 0]⟩).has_error_ = false := by
  decide

/-- C15 (amended): the flag is cleared by `resetErrors`, once its write has
returned, and also by `handleEMCY`: a frame changes a true flag, to false,
exactly when its error register is 0x00 or 0x20, and leaves it true for every
other register. -/
theorem handleEMCY_clears_iff (h : EMCYHandler) (c0 c1 r m0 m1 m2 m3 m4 : Nat)
    (hflag : h.has_error_ = true) :
    ((handleEMCY h ⟨[c0, c1, r, m0, m1, m2, m3, m4]⟩).has_error_ ≠ h.has_error_
        ↔ (r % 256 = 0x00 ∨ r % 256 = 0x20))
    ∧ ((handleEMCY h ⟨[c0, c1, r, m0, m1, m2, m3, m4]⟩).has_error_ = false
        ↔ (r % 256 = 0x00 ∨ r % 256 = 0x20))
    ∧ ((handleEMCY h ⟨[c0, c1, r, m0, m1, m2, m3, m4]⟩).has_error_ = true
        ↔ (r % 256 ≠ 0x00 ∧ r % 256 ≠ 0x20))
    ∧ (∀ storage : ObjectStorage,
        (h.num_errors_valid = true → storage.set_num_errors = none) →
        (resetErrors h storage).handler.has_error_ = false) := by
  have hr : r % 256 < 256 := Nat.mod_lt _ (by norm_num)
  have hmask := byte_and_not32 (r % 256) hr
  have htrue : (handleEMCY h ⟨[c0, c1, r, m0, m1, m2, m3, m4]⟩).has_error_ = true
      ↔ (r % 256 ≠ 0x00 ∧ r % 256 ≠ 0x20) := by
    simpa [handleEMCY, EMCYmsg.ofFrame, Frame.byte] using hmask
  have hfalse : (handleEMCY h ⟨[c0, c1, r, m0, m1, m2, m3, m4]⟩).has_error_ = false
      ↔ (r % 256 = 0x00 ∨ r % 256 = 0x20) := by
    rw [← Bool.not_eq_true, htrue]
    omega
  refine ⟨?_, hfalse, htrue, ?_⟩
  · rw [hflag, ← hfalse]
    simp
  · intro storage hwrite
    cases hvalid : h.num_errors_valid with
    | false => simp only [resetErrors, hvalid]; rfl
    | true => simp only [resetErrors, hvalid, hwrite hvalid, if_true]

/-- Witness for C15: a true flag and the registers 0x20 and 0x01. -/
theorem handleEMCY_clears_iff_witness :
    freshHandler.has_error_ = true
    ∧ (handleEMCY freshHandler ⟨[0, 0, 0x20, 0, 0, 0, 0, 0]⟩).has_error_ = false
    ∧ (handleEMCY freshHandler ⟨[0, 0, 0x01, 0, 0, 0, 0, 0]⟩).has_error_ = true :=
  ⟨rfl,
   (handleEMCY_clears_iff freshHandler 0 0 0x20 0 0 0 0 0 rfl).2.1.mpr (by decide),
   (handleEMCY_clears_iff freshHandler 0 0 0x01 0 0 0 0 0 rfl).2.2.1.mpr (by decide)⟩

/-- C17: construction fails exactly when the lookup of the entry 0x1001
fails; when that lookup succeeds the handler is built whatever the lookup of
0x1003 sub 0, the read of 0x1014 and the creation of the listener do, and every
handler built starts with the flag true. -/
theorem construct_fails_iff (env : Startup) :
    ((∃ e, EMCYHandler.construct env = Except.error e) ↔ env.entry_error_register ≠ none)
    ∧ ((∃ c, EMCYHandler.construct env = Except.ok c) ↔ env.entry_error_register = none)
    ∧ (∀ c, EMCYHandler.construct env = Except.ok c →
        c.handler.has_error_ = true
        ∧ c.handler.num_errors_valid = env.entry_num_errors.isNone) := by
  cases hreg : env.entry_error_register with
  | some e =>
    have hc : EMCYHandler.construct env = Except.error e := by
      simp only [EMCYHandler.construct, hreg]
    rw [hc]
    simp
  | none =>
    rw [construct_of_register_found env hreg]
    refine ⟨by simp, by simp, ?_⟩
    intro c hc
    cases hc
    exact ⟨rfl, rfl⟩

/-- Witness for C17: with only the mandatory entry present the handler is
built, with the flag true and without a history length or a listener; without
the mandatory entry construction fails. -/
theorem construct_fails_iff_witness :
    (∃ c, EMCYHandler.construct startupBare = Except.ok c)
    ∧ EMCYHandler.construct startupBare =
        Except.ok
          { handler := { has_error_ := true, num_errors_valid := false },
            emcy_listener_ := none, requested := none }
    ∧ (∃ e, EMCYHandler.construct startupNoRegister = Except.error e) :=
  ⟨(construct_fails_iff startupBare).2.1.mpr rfl, rfl,
   (construct_fails_iff startupNoRegister).1.mpr (by decide)⟩


/-! ## Exceptions that leave the report -/

/-- One iteration at a position whose read raises something the loop does not
catch: the exception leaves the loop. -/
theorem historyLoop_uncaught (storage : ObjectStorage) (n i : Nat) (buf : String)
    (ho : storage.history (i + 1) = ReadResult.throws Exception.other) :
    historyLoop storage (n + 1) i buf =
      { buf := if i ≠ 0 then buf ++ ", " else buf, attempted := [i + 1],
        thrown := some Exception.other } := by
  simp only [historyLoop, ho]

/-- A walk in which no read raises anything but not-found and timeout raises
nothing. -/
theorem historyLoop_returns (storage : ObjectStorage) (n : Nat) :
    ∀ (i : Nat) (buf : String),
      (∀ j, i < j → j ≤ i + n → storage.history j ≠ ReadResult.throws Exception.other) →
      (historyLoop storage n i buf).thrown = none := by
  induction n with
  | zero => intro i buf _; rfl
  | succ n ih =>
    intro i buf hall
    have hrest : ∀ b, (historyLoop storage n (i + 1) b).thrown = none :=
      fun b => ih (i + 1) b (fun j h1 h2 => hall j (by omega) (by omega))
    cases hh : storage.history (i + 1) with
    | value x =>
      rw [historyLoop_step storage n i buf (by rw [hh]; rfl)]
      exact hrest _
    | throws e =>
      cases e with
      | out_of_range =>
        rw [historyLoop_step storage n i buf (by rw [hh]; rfl)]
        exact hrest _
      | TimeoutException => rw [historyLoop_timeout storage n i buf hh]
      | other => exact absurd hh (hall (i + 1) (by omega) (by omega))

/-- A walk over `N` positions whose first read that is neither readable nor
missing is at position `k` and raises something the loop does not catch: the
positions 1..k are visited and the exception leaves the loop. -/
theorem historyLoop_first_uncaught (storage : ObjectStorage) (N k : Nat)
    (hk1 : 1 ≤ k) (hkN : k ≤ N)
    (ho : storage.history k = ReadResult.throws Exception.other)
    (hbefore : ∀ j, 1 ≤ j → j < k → (storage.history j).continues = true) :
    (historyLoop storage N 0 "").thrown = some Exception.other
    ∧ (historyLoop storage N 0 "").attempted = List.range' 1 k := by
  obtain ⟨n, rfl⟩ : ∃ n, N = k + n := ⟨N - k, by omega⟩
  cases k with
  | zero => omega
  | succ k =>
    cases k with
    | zero =>
      rw [show 0 + 1 + n = n + 1 by omega, historyLoop_uncaught storage n 0 "" ho]
      exact ⟨rfl, rfl⟩
    | succ m =>
      have hall : ∀ j, 1 ≤ j → j ≤ m + 1 → (storage.history j).continues = true :=
        fun j h1 h2 => hbefore j h1 (by omega)
      rw [show m + 1 + 1 + n = m + 1 + (n + 1) by omega,
        historyLoop_from_start storage m (n + 1) hall,
        historyLoop_uncaught storage n (m + 1) _ ho]
      refine ⟨rfl, ?_⟩
      simp only
      conv_rhs => rw [List.range'_concat]
      rw [show 1 + 1 * (m + 1) = m + 1 + 1 by omega]

/-- A walk that raises nothing visited the positions 1..k for some `k` within
the length, and its text is the items of those positions joined by ", ". -/
theorem historyLoop_text (storage : ObjectStorage) (N : Nat)
    (hret : (historyLoop storage N 0 "").thrown = none) :
    ∃ k, k ≤ N
      ∧ (historyLoop storage N 0 "").attempted = List.range' 1 k
      ∧ (historyLoop storage N 0 "").buf =
          ", ".intercalate ((List.range' 1 k).map (historyItem storage)) := by
  by_cases hall : ∀ j, 1 ≤ j → j ≤ N → (storage.history j).continues = true
  · refine ⟨N, le_refl N, ?_, ?_⟩ <;> rw [historyLoop_all storage N hall]
  · have hex : ∃ j, 1 ≤ j ∧ j ≤ N ∧ (storage.history j).continues ≠ true := by
      by_contra hno
      apply hall
      intro j h1 h2
      by_contra hc
      exact hno ⟨j, h1, h2, hc⟩
    obtain ⟨hk1, hkN, hkc⟩ := Nat.find_spec hex
    have hbefore : ∀ j, 1 ≤ j → j < Nat.find hex → (storage.history j).continues = true := by
      intro j h1 h2
      by_contra hc
      exact Nat.find_min hex h2 ⟨h1, by omega, hc⟩
    generalize Nat.find hex = k at hk1 hkN hkc hbefore
    cases hh : storage.history k with
    | value x => rw [hh] at hkc; exact absurd rfl hkc
    | throws e =>
      cases e with
      | out_of_range => rw [hh] at hkc; exact absurd rfl hkc
      | other =>
        rw [(historyLoop_first_uncaught storage N k hk1 hkN hh hbefore).1] at hret
        exact absurd hret (by simp)
      | TimeoutException =>
        have hw := historyLoop_first_timeout storage N k hk1 hkN hh hbefore
        refine ⟨k, hkN, by rw [hw], ?_⟩
        rw [hw]
        obtain ⟨m, rfl⟩ : ∃ m, k = m + 1 := ⟨k - 1, by omega⟩
        have hitem : historyItem storage (m + 1) = "LIST_UNDERFLOW!" := by
          simp only [historyItem, hh]
        simp only [Nat.add_sub_cancel]
        conv_rhs => rw [List.range'_concat, List.map_append]
        rw [show 1 + 1 * m = m + 1 by omega, List.map_singleton, hitem]


/-- C16 (as stated, refuted): the register is 0x01, the history length is 2 and
the read of position 1 raises an exception that is neither `out_of_range` nor
`TimeoutException`; the exception leaves `handleDiag` and the report has no
history text. -/
theorem handleDiag_uncaught_exception_escapes :
    (handleDiag freshHandler storageFirstFails).thrown = some Exception.other
    ∧ (handleDiag freshHandler storageFirstFails).calls =
        [SinkCall.error "Node has emergency error", SinkCall.add_uint "error_register" 1] := by
  decide

/-- C16 (amended): when the read of a valid history-length entry gives a
length, `handleDiag` returns normally for every dictionary in which no history
read raises anything but not-found and timeout; a history read that raises
anything else, reached by the walk, is not caught: the exception leaves
`handleDiag`, after the register field and with no history text attached. -/
theorem handleDiag_returns_unless_uncaught (h : EMCYHandler) (storage : ObjectStorage)
    (hlen : h.num_errors_valid = true → ∃ N, storage.num_errors = ReadResult.value N) :
    ((∀ j, storage.history j ≠ ReadResult.throws Exception.other) →
        (handleDiag h storage).thrown = none)
    ∧ (∀ v N k, storage.error_register = ReadResult.value v → v % 256 ≠ 0 →
        h.num_errors_valid = true → storage.num_errors = ReadResult.value N →
        1 ≤ k → k ≤ N % 256 →
        storage.history k = ReadResult.throws Exception.other →
        (∀ j, 1 ≤ j → j < k → (storage.history j).continues = true) →
        (handleDiag h storage).thrown = some Exception.other
        ∧ (handleDiag h storage).calls =
            diagSeverityCalls (v % 256) ++ [SinkCall.add_uint "error_register" (v % 256)]
        ∧ (handleDiag h storage).accesses =
            Access.read 0x1001 0 :: Access.read 0x1003 0 ::
              (List.range' 1 k).map (fun sub => Access.read 0x1003 sub)) := by
  constructor
  · intro hsafe
    cases hreg : storage.error_register with
    | throws e => simp [handleDiag, hreg]
    | value v =>
      by_cases hz : v % 256 = 0
      · rw [handleDiag_register_zero h storage v hreg hz]
      · cases hvalid : h.num_errors_valid with
        | false => simp [handleDiag, hreg, hz, hvalid]
        | true =>
          obtain ⟨N, hnum⟩ := hlen hvalid
          rw [handleDiag_walk h storage v N hreg hz hvalid hnum]
          exact historyLoop_returns storage (N % 256) 0 "" (fun j _ _ => hsafe j)
  · intro v N k hreg hnz hvalid hnum hk1 hkN ho hbefore
    obtain ⟨hthrown, hatt⟩ := historyLoop_first_uncaught storage (N % 256) k hk1 hkN ho hbefore
    rw [handleDiag_walk h storage v N hreg hnz hvalid hnum]
    refine ⟨hthrown, ?_, ?_⟩
    · simp only [hthrown]
    · simp only [Walk.accesses, hatt]
      rfl

/-- Witness for C16: with position 3 missing the report comes back with the
sentinel in its text; with position 1 raising an uncaught exception the
exception leaves `handleDiag`. -/
theorem handleDiag_returns_unless_uncaught_witness :
    ((handleDiag freshHandler storageThirdMissing).thrown = none
      ∧ SinkCall.add_text "errors" "1000#0, 2310#1, NOT_IN_DICT!"
          ∈ (handleDiag freshHandler storageThirdMissing).calls)
    ∧ (handleDiag freshHandler storageFirstFails).thrown = some Exception.other := by
  have hsafe : ∀ j, storageThirdMissing.history j ≠ ReadResult.throws Exception.other := by
    intro j
    simp only [storageThirdMissing]
    split_ifs <;> simp
  refine ⟨⟨(handleDiag_returns_unless_uncaught freshHandler storageThirdMissing
      (fun _ => ⟨3, rfl⟩)).1 hsafe, by decide⟩, ?_⟩
  exact ((handleDiag_returns_unless_uncaught freshHandler storageFirstFails
    (fun _ => ⟨2, rfl⟩)).2 0x01 2 1 rfl (by decide) rfl rfl (by decide) (by decide) rfl
    (fun j h1 h2 => by omega)).1

/-- C18 (as stated, refuted): for the readable entries 0x00001000 and
0x00012310 the items in the history text are "1000#0" and "2310#1", the
decoded code and info in hexadecimal, and not the classification of the code,
neither the one worded in the spec nor what `resolveErrorCode` writes. -/
theorem handleDiag_item_is_not_classification :
    (handleDiag freshHandler storageThirdMissing).calls =
        [SinkCall.error "Node has emergency error", SinkCall.add_uint "error_register" 1,
         SinkCall.add_text "errors" "1000#0, 2310#1, NOT_IN_DICT!"]
    ∧ historyItem storageThirdMissing 1 = "1000#0"
    ∧ classify 0x1000 = " 0x001000 Generic Error"
    ∧ resolveErrorCode "" 0x1000 = some " 0x001000 "
    ∧ historyItem storageThirdMissing 1 ≠ classify 0x1000
    ∧ some (historyItem storageThirdMissing 1) ≠ resolveErrorCode "" 0x1000 := by
  decide

/-- C18 (amended): whenever `handleDiag` walks the history and returns, the
history text is the items of the positions visited, 1..k in order, joined by
", ", and the item of a readable entry is its decoded error code and
additional info in hexadecimal with "#" between them. -/
theorem handleDiag_history_text (h : EMCYHandler) (storage : ObjectStorage) (v N : Nat)
    (hreg : storage.error_register = ReadResult.value v) (hnz : v % 256 ≠ 0)
    (hvalid : h.num_errors_valid = true)
    (hnum : storage.num_errors = ReadResult.value N)
    (hret : (handleDiag h storage).thrown = none) :
    (∃ k, k ≤ N % 256
      ∧ (handleDiag h storage).accesses =
          Access.read 0x1001 0 :: Access.read 0x1003 0 ::
            (List.range' 1 k).map (fun sub => Access.read 0x1003 sub)
      ∧ (handleDiag h storage).calls =
          diagSeverityCalls (v % 256) ++
            [SinkCall.add_uint "error_register" (v % 256),
             SinkCall.add_text "errors"
               (", ".intercalate ((List.range' 1 k).map (historyItem storage)))])
    ∧ (∀ j x, storage.history j = ReadResult.value x →
        historyItem storage j =
          hexString (x % 2 ^ 32 % 65536) ++ "#" ++ hexString (x % 2 ^ 32 / 65536)) := by
  have hd := handleDiag_walk h storage v N hreg hnz hvalid hnum
  have hw : (historyLoop storage (N % 256) 0 "").thrown = none := by
    rw [hd] at hret
    exact hret
  obtain ⟨k, hk, hatt, hbuf⟩ := historyLoop_text storage (N % 256) hw
  refine ⟨⟨k, hk, ?_, ?_⟩, ?_⟩
  · rw [hd]
    simp only [Walk.accesses, hatt]
    rfl
  · rw [hd]
    simp only [hw, hbuf, List.append_assoc, List.singleton_append]
  · intro j x hj
    simp [historyItem, hj, EMCYfield.ofVal]

/-- Witness for C18: the walk over two readable entries and a missing one. -/
theorem handleDiag_history_text_witness :
    (handleDiag freshHandler storageThirdMissing).thrown = none
    ∧ historyItem storageThirdMissing 2 = hexString 0x2310 ++ "#" ++ hexString 0x0001
    ∧ hexString 0x2310 ++ "#" ++ hexString 0x0001 = "2310#1" :=
  ⟨by decide,
   (handleDiag_history_text freshHandler storageThirdMissing 0x01 3 rfl (by decide) rfl rfl
      (by decide)).2 2 0x00012310 rfl,
   by decide⟩


/-! ## The classification table -/

set_option maxRecDepth 100000 in
/-- The masks 0xFF00 and 0xF000 clear every bit of a low byte. -/
theorem low_byte_masked :
    ∀ lo : Nat, lo < 256 → (lo &&& 0xFF00 = 0 ∧ lo &&& 0xF000 = 0) := by
  decide

set_option maxRecDepth 100000 in
/-- On a high byte in place, the mask 0xFF00 keeps the byte and the mask 0xF000
its high nibble. -/
theorem high_byte_masked :
    ∀ hi : Nat, hi < 256 →
      (2 ^ 8 * hi &&& 0xFF00 = hi * 256 ∧ 2 ^ 8 * hi &&& 0xF000 = hi / 16 * 4096) := by
  decide

/-- The masks of the table on 16-bit codes, by arithmetic: 0xFF00 keeps the
high byte and 0xF000 the high nibble. -/
theorem land_table_masks (code : Nat) (hcode : code < 65536) :
    code &&& 0xFF00 = code / 256 * 256 ∧ code &&& 0xF000 = code / 4096 * 4096 := by
  have hlo : code % 256 < 2 ^ 8 := Nat.mod_lt _ (by norm_num)
  have hsplit : code = 2 ^ 8 * (code / 256) ||| code % 256 := by
    rw [← Nat.mul_add_lt_is_or hlo]
    omega
  obtain ⟨l1, l2⟩ := low_byte_masked (code % 256) (Nat.mod_lt _ (by norm_num))
  obtain ⟨h1, h2⟩ := high_byte_masked (code / 256) (by omega)
  constructor
  · conv_lhs => rw [hsplit, Nat.and_distrib_right, l1, h1, Nat.or_zero]
  · conv_lhs => rw [hsplit, Nat.and_distrib_right, l2, h2, Nat.or_zero]
    omega

/-- Whether a rule of the table matches a 16-bit code depends on the high byte
of the code only. -/
theorem ruleMatches_high_byte (code : Nat) (hcode : code < 65536) :
    ∀ it ∈ error_map, ruleMatches code it = ruleMatches (code / 256 * 256) it := by
  have h1 := land_table_masks code hcode
  have h2 := land_table_masks (code / 256 * 256) (by omega)
  have hFF : code &&& 0xFF00 = code / 256 * 256 &&& 0xFF00 := by
    rw [h1.1, h2.1]; omega
  have hF0 : code &&& 0xF000 = code / 256 * 256 &&& 0xF000 := by
    rw [h1.2, h2.2]; omega
  intro it hit
  simp only [error_map, List.mem_cons, List.mem_singleton, List.not_mem_nil, or_false] at hit
  rcases hit with rfl | rfl | rfl | rfl | rfl | rfl | rfl | rfl | rfl | rfl | rfl | rfl <;>
    simp only [ruleMatches, hFF, hF0]

set_option maxRecDepth 100000 in
/-- At most one rule of the table matches a code whose low byte is zero. -/
theorem high_byte_unambiguous :
    ∀ hi : Nat, hi < 256 → (error_map.filter (ruleMatches (hi * 256))).length ≤ 1 := by
  decide

/-- At most one rule of the table matches a 16-bit code. -/
theorem error_map_matches_at_most_one (code : Nat) (hcode : code < 65536) :
    (error_map.filter (ruleMatches code)).length ≤ 1 := by
  rw [List.filter_congr (ruleMatches_high_byte code hcode)]
  exact high_byte_unambiguous (code / 256) (by omega)

/-- A list of at most one element is fixed by its elements. -/
theorem eq_of_perm_of_length_le_one {α : Type} (l1 l2 : List α) (hp : l1.Perm l2)
    (hlen : l2.length ≤ 1) : l1 = l2 := by
  match l2, hlen with
  | [], _ => exact hp.eq_nil
  | [a], _ => exact List.perm_singleton.mp hp
  | _ :: _ :: _, hlen => simp at hlen

/-- C19: over the twelve rules of the table every 16-bit code matches at most
one rule under `(code & mask) == code_pattern`, so the rule found, and with it
the text of the classification, is the same for every ordering of the
table. -/
theorem error_map_unambiguous (code : Nat) (hcode : code < 65536) :
    error_map.length = 12
    ∧ (error_map.filter (ruleMatches code)).length ≤ 1
    ∧ (∀ table : List ((Nat × Nat) × String), table.Perm error_map →
        table.find? (ruleMatches code) = error_map.find? (ruleMatches code))
    ∧ (∀ table : List ((Nat × Nat) × String), table.Perm error_map →
        classifyWith table code = classify code) := by
  have hone := error_map_matches_at_most_one code hcode
  have hfind : ∀ table : List ((Nat × Nat) × String), table.Perm error_map →
      table.find? (ruleMatches code) = error_map.find? (ruleMatches code) := by
    intro table hp
    rw [← List.filter_head?, ← List.filter_head?,
      eq_of_perm_of_length_le_one _ _ (hp.filter (ruleMatches code)) hone]
  refine ⟨rfl, hone, hfind, ?_⟩
  intro table hp
  have hc : classify code = classifyWith error_map code := rfl
  rw [hc, classifyWith, classifyWith, hfind table hp]

/-- Witness for C19: the code 0xFF12 matches the last rule only, also when the
table is read in reverse. -/
theorem error_map_unambiguous_witness :
    (0xFF12 : Nat) < 65536
    ∧ classifyWith error_map.reverse 0xFF12 = classify 0xFF12
    ∧ classify 0xFF12 = " 0x00ff12 Device Specific" :=
  ⟨by norm_num,
   (error_map_unambiguous 0xFF12 (by norm_num)).2.2.2 error_map.reverse
     (List.reverse_perm error_map),
   by decide⟩

/-- A value of at most seven hexadecimal digits is streamed as at most seven
characters. -/
theorem hexString_length (v : Nat) (hv : v < 16 ^ 7) : (hexString v).length ≤ 7 := by
  have := Nat.toDigitsCore_length 16 (by norm_num) (v + 1) v 7 hv (by norm_num)
  simpa [hexString, Nat.toDigits, String.length] using this

/-- Below 0x10000000 the text of the `sprintf` and its NUL fit the twelve
bytes of the buffer. -/
theorem sprintfHex_fits (code : Nat) (hcode : code < 0x10000000) :
    sprintfHex code = some (hexField code) := by
  have hu : code % 2 ^ 32 = code := Nat.mod_eq_of_lt (by omega)
  have hd := hexString_length code (by norm_num; omega)
  have hlen : (hexField code).length + 1 ≤ 12 := by
    simp only [hexField, hu, String.length_append]
    by_cases h0 : code = 0
    · subst h0; decide
    · simp only [h0, if_false]
      have hmk : ∀ l : List Char, (String.mk l).length = l.length := fun _ => rfl
      have h1 : " ".length = 1 := rfl
      have h2 : "0x".length = 2 := rfl
      have hrep : (String.mk (List.replicate (8 - 2 - (hexString code).length) '0')).length
          = 8 - 2 - (hexString code).length := by
        rw [hmk, List.length_replicate]
      rw [h2, hrep, h1]
      omega
  simp only [sprintfHex, hlen, if_true]

/-- C20 (as stated, refuted): at the error code 0x10000000 the text of the
`sprintf` and its NUL take 13 bytes, one more than `char hex[12]` holds, so
`resolveErrorCode` has no defined output there. -/
theorem resolveErrorCode_overruns_buffer :
    (hexField 0x10000000).length + 1 = 13
    ∧ sprintfHex 0x10000000 = none
    ∧ resolveErrorCode "" 0x10000000 = none := by
  decide

/-- C20 (amended): as written, `resolveErrorCode` appends no label, for any
stream content and any error code below 0x10000000, the codes whose rendering
fits the buffer of the `sprintf`: the loop looks at the first rule only,
whatever follows it in the table, and its test `mask & (error_code == code)`
is zero because every mask of the table has bit 0 clear; the output is the
hexadecimal rendering alone. -/
theorem resolveErrorCode_appends_no_label :
    (∀ (buf : String) (code : Nat), code < 0x10000000 →
        resolveErrorCode buf code = some (buf ++ hexField code))
    ∧ (∀ it ∈ error_map, it.1.2 % 2 = 0)
    ∧ (∀ it ∈ error_map, ∀ code : Nat, it.1.2 &&& (if code = it.1.1 then 1 else 0) = 0)
    ∧ (∀ (code : Nat) (it : (Nat × Nat) × String) (rest rest2 : List ((Nat × Nat) × String))
        (buf : String),
        resolveErrorCodeLoop code (it :: rest) buf = resolveErrorCodeLoop code (it :: rest2) buf)
    ∧ (∀ (code : Nat) (it : (Nat × Nat) × String) (rest : List ((Nat × Nat) × String))
        (buf : String), it.1.2 % 2 = 0 →
        resolveErrorCodeLoop code (it :: rest) buf = buf) := by
  have hzero : ∀ (m code c : Nat), m % 2 = 0 → m &&& (if code = c then 1 else 0) = 0 := by
    intro m code c hm
    split
    · rw [Nat.and_one_is_mod]; exact hm
    · exact Nat.and_zero m
  have hmask : ∀ it ∈ error_map, it.1.2 % 2 = 0 := by decide
  refine ⟨?_, hmask, fun it hit code => hzero _ _ _ (hmask it hit), fun _ _ _ _ _ => rfl, ?_⟩
  · intro buf code hcode
    have h0 := hzero 0xFF00 code 0x0000 (by decide)
    simp only [resolveErrorCode, sprintfHex_fits code hcode, error_map, resolveErrorCodeLoop, h0,
      ne_eq, not_true_eq_false, if_false]
  · intro code it rest buf hm
    simp only [resolveErrorCodeLoop, hzero _ code it.1.1 hm, ne_eq, not_true_eq_false, if_false]

/-- Witness for C20: the first rule has an even mask, so the loop leaves the
stream as it found it, and the code 0x1000 gets its hexadecimal rendering
alone. -/
theorem resolveErrorCode_appends_no_label_witness :
    resolveErrorCodeLoop 0x0000 (((0x0000, 0xFF00), "No Error") :: []) "ER: " = "ER: "
    ∧ (0x1000 : Nat) < 0x10000000
    ∧ resolveErrorCode "ER: " 0x1000 = some "ER:  0x001000 " :=
  ⟨resolveErrorCode_appends_no_label.2.2.2.2 0x0000 ((0x0000, 0xFF00), "No Error") [] "ER: "
     (by decide),
   by norm_num,
   (resolveErrorCode_appends_no_label.1 "ER: " 0x1000 (by norm_num)).trans (by decide)⟩

end canopen
